import Mathlib

/-!
Verification development for the transaction coordination core of the
dragonfly repository (`server/transaction.cc`).  The C++ source is shallowly
embedded: each translated function operates on explicit state records, machine
integers become `Nat`/`Int`, `CHECK`/`LOG(FATAL)` aborts become `Option`
(`none` = process abort), and `DCHECK`s (debug-only) are dropped.  External
collaborators that are not part of the source tree (the key-lock table, the
intent lock, the TxQueue, absl helpers) are modelled from the specification's
description of their interfaces; each such definition carries a
`Modelled from the spec:` doc comment.  Argument tokens (string_views in the
source) are modelled as opaque `Nat` tokens except where their character
content matters (`DetermineKeys`), where they are `List Char`.
-/

set_option linter.unusedVariables false

namespace Dfly

/-- Status codes of the server, restricted to the ones the transaction core
produces (`OpStatus` in the source). -/
inductive OpStatus
  | OK
  | OUT_OF_MEMORY
  | SYNTAX_ERR
  | INVALID_INT
  | TIMED_OUT
  | CANCELLED
deriving DecidableEq, Repr

/-- Lock modes (`IntentLock::Mode`): SHARED for read-only commands, EXCLUSIVE
otherwise (`Transaction::Mode`). -/
inductive LockMode
  | SHARED
  | EXCLUSIVE
deriving DecidableEq, Repr

/-- Modelled from the spec: the per-shard per-key lock table is external to the
source (`DbSlice`); it keeps per-key shared/exclusive counters. -/
structure KeyLockCnt where
  sh : Nat := 0
  ex : Nat := 0
deriving DecidableEq, Repr

/-- Whether a key counter is free for the given mode: an exclusive request needs
both counters at zero, a shared request only needs no exclusive holder. -/
def KeyLockCnt.isFree (c : KeyLockCnt) (m : LockMode) : Bool :=
  match m with
  | .SHARED => c.ex == 0
  | .EXCLUSIVE => c.ex == 0 && c.sh == 0

/-- Bump the counter of the given mode by `n`. -/
def KeyLockCnt.bump (c : KeyLockCnt) (m : LockMode) (n : Nat) : KeyLockCnt :=
  match m with
  | .SHARED => { c with sh := c.sh + n }
  | .EXCLUSIVE => { c with ex := c.ex + n }

/-- Decrease the counter of the given mode by `n`. -/
def KeyLockCnt.drop (c : KeyLockCnt) (m : LockMode) (n : Nat) : KeyLockCnt :=
  match m with
  | .SHARED => { c with sh := c.sh - n }
  | .EXCLUSIVE => { c with ex := c.ex - n }

/-- Modelled from the spec: `DbSlice::Acquire(mode, LockArgs) -> bool` bumps the
counter of every key of the transaction on this shard and returns `true` when
the acquired lock is uncontested (all counters were free before). -/
def lockAcquire (t : Nat → KeyLockCnt) (m : LockMode) (keys : List Nat) :
    (Nat → KeyLockCnt) × Bool :=
  (fun k => (t k).bump m (keys.count k), decide (∀ k ∈ keys, (t k).isFree m = true))

/-- Modelled from the spec: `DbSlice::Release(mode, LockArgs)` decrements the
counter of every key of the transaction on this shard. -/
def lockRelease (t : Nat → KeyLockCnt) (m : LockMode) (keys : List Nat) :
    Nat → KeyLockCnt :=
  fun k => (t k).drop m (keys.count k)

/-- Modelled from the spec: `DbSlice::CheckLock(mode, LockArgs) -> bool` is the
check-then-acquire primitive's check half: free without acquiring. -/
def dbCheckLock (t : Nat → KeyLockCnt) (m : LockMode) (keys : List Nat) : Bool :=
  decide (∀ k ∈ keys, (t k).isFree m = true)

/-- Modelled from the spec: per-shard intent lock guarding global transactions,
an exclusive/shared counter pair. -/
structure IntentLock where
  sh : Nat := 0
  ex : Nat := 0
deriving DecidableEq, Repr

/-- Modelled from the spec: `IntentLock::Check(mode) -> bool`. -/
def IntentLock.Check (l : IntentLock) (m : LockMode) : Bool :=
  match m with
  | .SHARED => l.ex == 0
  | .EXCLUSIVE => l.ex == 0 && l.sh == 0

/-- Modelled from the spec: `IntentLock::Release(mode)`. -/
def IntentLock.ReleaseOne (l : IntentLock) (m : LockMode) : IntentLock :=
  match m with
  | .SHARED => { l with sh := l.sh - 1 }
  | .EXCLUSIVE => { l with ex := l.ex - 1 }

/-- Modelled from the spec: per-shard priority queue ordered by transaction id
(`TxQueue`), supporting positional removal.  Entries are `(position, score)`
pairs, where a position is a stable ticket handed out at insertion time;
`pq_pos = none` plays the role of `TxQueue::kEnd`. -/
structure TxQueue where
  entries : List (Nat × Nat) := []
  next_pos : Nat := 0
deriving DecidableEq, Repr

/-- Modelled from the spec: `TxQueue::Empty`. -/
def TxQueue.Empty (q : TxQueue) : Bool :=
  q.entries.isEmpty

/-- Modelled from the spec: `TxQueue::TailScore`, the largest score in the
queue (the queue is ordered by txid). -/
def TxQueue.TailScore (q : TxQueue) : Nat :=
  (q.entries.map Prod.snd).foldl max 0

/-- Modelled from the spec: the head entry, i.e. the entry with the smallest
score (earliest txid). -/
def TxQueue.headEntry (q : TxQueue) : Option (Nat × Nat) :=
  q.entries.foldl
    (fun acc e =>
      match acc with
      | none => some e
      | some b => if e.2 < b.2 then some e else some b)
    none

/-- Modelled from the spec: `TxQueue::Head`, the position of the head entry. -/
def TxQueue.Head (q : TxQueue) : Option Nat :=
  q.headEntry.map Prod.fst

/-- Modelled from the spec: `TxQueue::Insert`, which returns the position of
the inserted entry. -/
def TxQueue.Insert (q : TxQueue) (score : Nat) : TxQueue × Nat :=
  ({ entries := q.entries ++ [(q.next_pos, score)], next_pos := q.next_pos + 1 },
   q.next_pos)

/-- Modelled from the spec: `TxQueue::Remove` by position. -/
def TxQueue.Remove (q : TxQueue) (pos : Nat) : TxQueue :=
  { q with entries := q.entries.filter (fun e => e.1 ≠ pos) }

/-- PerShardData local_mask bits (`ACTIVE`, `KEYLOCK_ACQUIRED`, `SUSPENDED_Q`,
`AWAKED_Q`, `EXPIRED_Q`, `OUT_OF_ORDER`), one Bool per bit. -/
structure LocalMask where
  active : Bool := false
  keylock_acquired : Bool := false
  suspended_q : Bool := false
  awaked_q : Bool := false
  expired_q : Bool := false
  out_of_order : Bool := false
deriving DecidableEq, Repr

/-- Transaction::PerShardData: per-transaction-per-shard scratch.  `arg_start`
and `arg_count` are `Int` because the single-shard compression stores the
sentinel `-1` into them. -/
structure PerShardData where
  local_mask : LocalMask := {}
  arg_start : Int := 0
  arg_count : Int := 0
  pq_pos : Option Nat := none
  is_armed : Bool := false
deriving DecidableEq, Repr

/-- Shard-local state touched by the transaction code: the committed txid
watermark, the TxQueue, the external key-lock table and intent lock, plus
observation counters for external calls (`IncQuickRun`, `PollExecution`). -/
structure EngineShard where
  committed_txid : Nat := 0
  txq : TxQueue := {}
  key_locks : Nat → KeyLockCnt := fun _ => {}
  shard_lock : IntentLock := {}
  has_blocking_controller : Bool := false
  quick_runs : Nat := 0
  poll_count : Nat := 0

/-- State seen by `Transaction::CancelShardCb`: the shard plus this
transaction's per-shard data on it. -/
structure CancelState where
  shard : EngineShard
  sd : PerShardData

/-- Transaction::CancelShardCb (transaction.cc): remove this transaction from
the shard's TxQueue (if enqueued), release the key lock if held, and report
whether the coordinator should nudge `PollExecution` on this shard.
`mode`/`lock_keys` stand for `Mode()`/`GetLockArgs(sid)`. -/
def Transaction.CancelShardCb (mode : LockMode) (lock_keys : List Nat)
    (st : CancelState) : CancelState × Bool :=
  match st.sd.pq_pos with
  | none => (st, false)
  | some pos =>
    let sd0 := { st.sd with pq_pos := none }
    let head := st.shard.txq.Head
    let txq1 := st.shard.txq.Remove pos
    let (shard1, sd1) :=
      if sd0.local_mask.keylock_acquired then
        ({ st.shard with
            txq := txq1,
            key_locks := lockRelease st.shard.key_locks mode lock_keys },
         { sd0 with local_mask := { sd0.local_mask with keylock_acquired := false } })
      else
        ({ st.shard with txq := txq1 }, sd0)
    (⟨shard1, sd1⟩, head == some pos && !txq1.Empty)

/-- State seen by `Transaction::NotifySuspended`: this transaction's per-shard
data for the notifying shard, the transaction-wide `notify_txid_` rendezvous
and whether `blocking_ec_` has been notified. -/
structure NotifyState where
  sd : PerShardData
  notify_txid : Nat
  blocking_ec_notified : Bool := false
deriving DecidableEq, Repr

/-- Transaction::NotifySuspended (transaction.cc): called from a writer shard
when a watched key is updated.  `none` models the `CHECK(AWAKED_Q)` abort.  The
CAS-until-decrease loop on `notify_txid_` collapses, in this single-writer
shallow embedding, to a conditional decrease. -/
def Transaction.NotifySuspended (committed_txid : Nat) (st : NotifyState) :
    Option (NotifyState × Bool) :=
  let mask := st.sd.local_mask
  if mask.expired_q then
    some (st, false)
  else if mask.suspended_q then
    let sd1 :=
      { st.sd with local_mask := { mask with suspended_q := false, awaked_q := true } }
    if committed_txid < st.notify_txid then
      some ({ sd := sd1, notify_txid := committed_txid, blocking_ec_notified := true }, true)
    else
      some ({ st with sd := sd1 }, true)
  else if mask.awaked_q then
    some (st, false)
  else
    none

/-- State seen by `Transaction::ScheduleInShard`: the shard plus this
transaction's per-shard data on it. -/
structure SchedState where
  shard : EngineShard
  sd : PerShardData

/-- Transaction::ScheduleInShard (transaction.cc): non-blocking scheduling
attempt in the shard thread.  Returns the new state and the pair
`(schedule_success, lock_granted)`.  `txid`/`spans_all`/`mode`/`lock_keys`
stand for `txid_`, `IsGlobal()`, `Mode()` and `GetLockArgs(sid)`. -/
def Transaction.ScheduleInShard (txid : Nat) (spans_all : Bool) (mode : LockMode)
    (lock_keys : List Nat) (st : SchedState) : SchedState × Bool × Bool :=
  if st.shard.committed_txid ≥ txid then
    (st, false, false)
  else
    let (st1, lock_granted) :=
      if spans_all then
        (st, false)
      else
        let shard_unlocked := st.shard.shard_lock.Check mode
        let acq := lockAcquire st.shard.key_locks mode lock_keys
        ({ shard := { st.shard with key_locks := acq.1 },
           sd := { st.sd with
             local_mask := { st.sd.local_mask with keylock_acquired := true } } },
         acq.2 && shard_unlocked)
    if !st1.shard.txq.Empty && !(lock_granted || st1.shard.txq.TailScore < txid) then
      -- rejected: roll back the key lock acquired above, if any
      let st2 :=
        if st1.sd.local_mask.keylock_acquired then
          { shard := { st1.shard with
              key_locks := lockRelease st1.shard.key_locks mode lock_keys },
            sd := { st1.sd with
              local_mask := { st1.sd.local_mask with keylock_acquired := false } } }
        else st1
      (st2, false, false)
    else
      let ins := st1.shard.txq.Insert txid
      ({ shard := { st1.shard with txq := ins.1 },
         sd := { st1.sd with pq_pos := some ins.2 } },
       true, lock_granted)

/-- Outcome of running the user callback (`cb_`): a returned status, a
`std::bad_alloc`, or any other exception type. -/
inductive CbOutcome
  | ret (s : OpStatus)
  | badAlloc
  | otherExc
deriving DecidableEq, Repr

/-- State seen by `Transaction::ScheduleUniqueShard` and
`Transaction::RunQuickie`: the process-wide `op_seq` counter, this
transaction's coordinator fields and the single target shard.  `ran_inline`
observes that the callback was invoked inline (quickie). -/
structure UniqueShardState where
  op_seq : Nat
  txid : Nat := 0
  local_result : OpStatus := .OK
  cb_present : Bool := true
  sd : PerShardData := {}
  shard : EngineShard
  ran_inline : Bool := false

/-- Transaction::RunQuickie (transaction.cc): run the callback inline on the
single target shard, bypassing the TxQueue.  `none` models the `LOG(FATAL)`
on an unexpected exception type.  The callback's own writes go to the data
store, which is outside this model; its control outcome is `cb_outcome`.
`LogAutoJournalOnShard` is elided because its `RecordEntry` call is commented
out in the source. -/
def Transaction.RunQuickie (cb_outcome : CbOutcome) (st : UniqueShardState) :
    Option UniqueShardState :=
  let st1 :=
    { st with
        shard := { st.shard with quick_runs := st.shard.quick_runs + 1 },
        ran_inline := true }
  match cb_outcome with
  | .ret s =>
    some { st1 with local_result := s,
                    sd := { st1.sd with is_armed := false }, cb_present := false }
  | .badAlloc =>
    some { st1 with local_result := .OUT_OF_MEMORY,
                    sd := { st1.sd with is_armed := false }, cb_present := false }
  | .otherExc => none

/-- Transaction::ScheduleUniqueShard (transaction.cc): optimized single-shard
path that runs the callback eagerly when the key lock and the shard intent
lock are both free, and otherwise allocates `txid = op_seq++`, inserts into
the TxQueue, acquires the key lock and calls `PollExecution`.  Returns
`(state, was_eagerly_executed)`. -/
def Transaction.ScheduleUniqueShard (mode : LockMode) (lock_keys : List Nat)
    (cb_outcome : CbOutcome) (st : UniqueShardState) :
    Option (UniqueShardState × Bool) :=
  if dbCheckLock st.shard.key_locks mode lock_keys && st.shard.shard_lock.Check mode then
    (Transaction.RunQuickie cb_outcome st).map (fun s => (s, true))
  else
    let txid := st.op_seq
    let ins := st.shard.txq.Insert txid
    let acq := lockAcquire st.shard.key_locks mode lock_keys
    some
      ({ st with
          op_seq := st.op_seq + 1,
          txid := txid,
          shard := { st.shard with
            txq := ins.1,
            key_locks := acq.1,
            poll_count := st.shard.poll_count + 1 },
          sd := { st.sd with
            pq_pos := some ins.2,
            local_mask := { st.sd.local_mask with keylock_acquired := true } } },
       false)

/-- Per-transaction parameters of `Transaction::RunInShard` that are fixed for
the duration of the hop: `IsGlobal()`, `IsAtomicMulti()`,
`multi_ && multi_->IsIncrLocks()`, `Mode()` and `GetLockArgs(sid)`. -/
structure RunParams where
  is_global : Bool
  is_atomic_multi : Bool
  incremental_lock : Bool
  mode : LockMode
  lock_keys : List Nat

/-- State seen by `Transaction::RunInShard`: coordinator fields, this shard's
per-shard data and the shard itself.  `bc_finalized` / `bc_notify_pending`
observe the calls into the external blocking controller, `run_ec_notified`
observes the coordinator barrier notification. -/
structure RunState where
  txid : Nat
  unique_shard_cnt : Nat
  local_result : OpStatus := .OK
  run_count : Nat
  cb_present : Bool := true
  coord_concluding : Bool
  sd : PerShardData
  shard : EngineShard
  run_ec_notified : Bool := false
  bc_finalized : Bool := false
  bc_notify_pending : Bool := false
  auto_journal_called : Bool := false

/-- Mask handed to the user callback by `RunInShard`: the entry mask, with
`KEYLOCK_ACQUIRED` set first when the transaction locks incrementally and has
not locked yet (transaction.cc, the incremental-lock block before the
callback). -/
def runCbInputMask (p : RunParams) (st : RunState) : LocalMask :=
  if !p.is_global && p.incremental_lock && !st.sd.local_mask.keylock_acquired then
    { st.sd.local_mask with keylock_acquired := true }
  else st.sd.local_mask

/-- The incremental-locking prologue of Transaction::RunInShard
(transaction.cc): transactions inside a LOCK_INCREMENTAL multi acquire their
keys right before executing, exactly once (skipped when `KEYLOCK_ACQUIRED` is
already set, for globals, and for everything else). -/
def Transaction.RunInShardPre (p : RunParams) (st1 : RunState) : RunState :=
  if !p.is_global && p.incremental_lock && !st1.sd.local_mask.keylock_acquired then
    { st1 with
        sd := { st1.sd with
          local_mask := { st1.sd.local_mask with keylock_acquired := true } },
        shard := { st1.shard with
          key_locks := (lockAcquire st1.shard.key_locks p.mode p.lock_keys).1 } }
  else st1

/-- The callback section of Transaction::RunInShard (transaction.cc): run the
user callback and capture its status.  For a single-shard transaction the
status is stored as `local_result_` and the callback slot cleared; for
multi-shard hops only OK and OUT_OF_MEMORY are accepted
(`CHECK_EQ(OpStatus::OK, status)` aborts on anything else); `std::bad_alloc`
becomes OUT_OF_MEMORY and any other exception type is fatal (`none`). -/
def Transaction.RunInShardBody (cbRes : LocalMask → CbOutcome)
    (cbMask : LocalMask → LocalMask) (st2 : RunState) : Option RunState :=
  let st3 := { st2 with sd := { st2.sd with local_mask := cbMask st2.sd.local_mask } }
  match cbRes st2.sd.local_mask with
  | .ret s =>
    if st3.unique_shard_cnt == 1 then
      some { st3 with cb_present := false, local_result := s }
    else if s = .OUT_OF_MEMORY then
      some { st3 with local_result := s }
    else if s = .OK then
      some st3
    else
      none
  | .badAlloc => some { st3 with local_result := .OUT_OF_MEMORY }
  | .otherExc => none

/-- The epilogue of Transaction::RunInShard (transaction.cc): journal on the
concluding hop (`RecordEntry` itself is elided in the source), remove the
transaction from the TxQueue upon first invocation, release the locks on a
final non-multi hop (keeping the key lock when the transaction newly became
suspended), drive the blocking controller, and decrement the run count,
notifying the coordinator barrier when it hits zero.  Returns the state and
the `keep` flag (`!should_release`). -/
def Transaction.RunInShardTail (p : RunParams)
    (was_suspended awaked_prerun is_concluding : Bool) (st4 : RunState) :
    RunState × Bool :=
  let should_release := is_concluding && !p.is_atomic_multi
  let st5 := if is_concluding then { st4 with auto_journal_called := true } else st4
  let st6 :=
    match st5.sd.pq_pos with
    | some pos =>
      { st5 with
          shard := { st5.shard with txq := st5.shard.txq.Remove pos },
          sd := { st5.sd with pq_pos := none } }
    | none => st5
  let st7 :=
    if should_release then
      let became_suspended := st6.sd.local_mask.suspended_q
      let st6a :=
        if p.is_global then
          { st6 with shard := { st6.shard with
              shard_lock := st6.shard.shard_lock.ReleaseOne p.mode } }
        else
          let st6b :=
            if was_suspended || !became_suspended then
              { st6 with
                  shard := { st6.shard with
                    key_locks := lockRelease st6.shard.key_locks p.mode p.lock_keys },
                  sd := { st6.sd with
                    local_mask := { st6.sd.local_mask with keylock_acquired := false } } }
            else st6
          { st6b with sd := { st6b.sd with
              local_mask := { st6b.sd.local_mask with out_of_order := false } } }
      if st6a.shard.has_blocking_controller then
        let stf :=
          if awaked_prerun || was_suspended then { st6a with bc_finalized := true }
          else st6a
        { stf with bc_notify_pending := true }
      else st6a
    else st6
  ({ st7 with
      run_count := st7.run_count - 1,
      run_ec_notified := st7.run_ec_notified || st7.run_count == 1 },
   !should_release)

/-- Transaction::RunInShard (transaction.cc): one hop of this transaction on
one shard, as the composition of the three stages above.  The user callback is
split into its control outcome `cbRes` and its effect `cbMask` on this shard's
local mask (the data-store writes are outside the model; real callbacks such
as `WatchInShard` set `SUSPENDED_Q`).  `none` models process aborts. -/
def Transaction.RunInShard (p : RunParams) (cbRes : LocalMask → CbOutcome)
    (cbMask : LocalMask → LocalMask) (st : RunState) : Option (RunState × Bool) :=
  let st1 := { st with sd := { st.sd with is_armed := false } }
  let was_suspended := st1.sd.local_mask.suspended_q
  let awaked_prerun := st1.sd.local_mask.awaked_q
  let is_concluding := st1.coord_concluding
  match Transaction.RunInShardBody cbRes cbMask (Transaction.RunInShardPre p st1) with
  | none => none
  | some st4 =>
    some (Transaction.RunInShardTail p was_suspended awaked_prerun is_concluding st4)

/-- Transaction::MultiData::mode values. -/
inductive MultiMode
  | NOT_DETERMINED
  | GLOBAL
  | LOCK_AHEAD
  | LOCK_INCREMENTAL
  | NON_ATOMIC
deriving DecidableEq, Repr

/-- State seen by `Transaction::MultiSwitchCmd`: the command handle (opaque),
the single-shard fast-path fields, the flat args, the per-shard scratch, the
txid and the coordinator state bitset. -/
structure MultiSwitchState where
  cid : Nat
  unique_shard_id : Nat
  unique_shard_cnt : Nat
  args : List Nat
  cb_present : Bool
  shard_data : List PerShardData
  txid : Nat
  coordinator_state : Nat
  multi_mode : MultiMode
deriving DecidableEq, Repr

/-- Transaction::MultiSwitchCmd (transaction.cc): rebind the transaction to the
next sub-command of a multi.  Only for `NON_ATOMIC` mode does it also clear the
per-shard scratch, the txid and the coordinator state. -/
def Transaction.MultiSwitchCmd (new_cid : Nat) (st : MultiSwitchState) :
    MultiSwitchState :=
  let st1 :=
    { st with
        unique_shard_id := 0,
        unique_shard_cnt := 0,
        args := [],
        cid := new_cid,
        cb_present := false }
  if st.multi_mode = .NON_ATOMIC then
    { st1 with
        shard_data := st1.shard_data.map (fun sd =>
          { sd with arg_count := 0, arg_start := 0, local_mask := {}, pq_pos := none }),
        txid := 0,
        coordinator_state := 0 }
  else st1

/-- Command option flags (`CO::*`) used by the transaction core. -/
structure CmdFlags where
  readonly : Bool := false
  write : Bool := false
  global_trans : Bool := false
  variadic_keys : Bool := false
  reverse_mapping : Bool := false
  no_autojournal : Bool := false
deriving DecidableEq, Repr

/-- Command metadata handle (`CommandId`), external to the source: name,
option mask, fixed key positions and key step. -/
structure CommandId where
  name : List Char
  opt_mask : CmdFlags := {}
  first_key_pos : Nat := 0
  last_key_pos : Int := 0
  key_arg_step : Nat := 1
deriving DecidableEq, Repr

/-- KeyIndex `{start, end, step, bonus}` as computed by `DetermineKeys`
(declared in the external header, populated by the source). -/
structure KeyIndex where
  start : Nat := 0
  end_ : Nat := 0
  step : Nat := 1
  bonus : Nat := 0
deriving DecidableEq, Repr

/-- Modelled from the spec: `KeyIndex::Empty()`, the empty key range returned
for global commands. -/
def KeyIndex.Empty : KeyIndex := {}

/-- Modelled from the spec: `KeyIndex::HasSingleKey()` — exactly one key (one
key group of `step` arguments, no bonus key). -/
def KeyIndex.HasSingleKey (k : KeyIndex) : Bool :=
  k.bonus == 0 && decide (k.end_ ≤ k.start + k.step)

/-- Modelled from the spec: `KeyIndex::num_args()` — the number of arguments
covered by the range plus the bonus key. -/
def KeyIndex.num_args (k : KeyIndex) : Nat :=
  (k.end_ - k.start) + (if 0 < k.bonus then 1 else 0)

/-- Modelled from the spec: `absl::StartsWith(name, "EVAL")`. -/
def startsWithEval (name : List Char) : Bool :=
  match name with
  | 'E' :: 'V' :: 'A' :: 'L' :: _ => true
  | _ => false

/-- Modelled from the spec: `absl::EndsWith(name, "STORE")`. -/
def endsWithStore (name : List Char) : Bool :=
  match name.reverse with
  | 'E' :: 'R' :: 'O' :: 'T' :: 'S' :: _ => true
  | _ => false

/-- Digit-string value: `none` unless the list is a non-empty run of decimal
digits. -/
def digitsToNat (l : List Char) : Option Nat :=
  match l with
  | [] => none
  | _ =>
    l.foldl
      (fun acc c =>
        match acc with
        | none => none
        | some n => if c.isDigit then some (n * 10 + (c.toNat - 48)) else none)
      (some 0)

/-- Modelled from the spec: `absl::SimpleAtoi<int>` — an optional minus sign
followed by digits; anything else fails. -/
def SimpleAtoi (s : List Char) : Option Int :=
  match s with
  | '-' :: rest => (digitsToNat rest).map (fun n => -(n : Int))
  | l => (digitsToNat l).map (fun n => (n : Int))

/-- Position at which a variadic command declares its key count: `2` for
`EVAL*` commands, else `bonus + 1` where `bonus = 1` for `Z<xxx>STORE`
commands (transaction.cc, DetermineKeys). -/
def numKeysIndexOf (cid : CommandId) : Nat :=
  if startsWithEval cid.name then 2
  else (if endsWithStore cid.name then 1 else 0) + 1

/-- DetermineKeys (transaction.cc): compute the KeyIndex of a command from its
metadata and argument vector.  The outer `Option` models the `LOG(FATAL)` for
commands without positional key information; the `Except` carries the
`SYNTAX_ERR` / `INVALID_INT` statuses of `OpResult<KeyIndex>`. -/
def DetermineKeys (cid : CommandId) (args : List (List Char)) :
    Option (Except OpStatus KeyIndex) :=
  if cid.opt_mask.global_trans then
    some (Except.ok KeyIndex.Empty)
  else
    let variadicRes : Except OpStatus (Nat × Option Nat) :=
      if cid.opt_mask.variadic_keys then
        if args.length < 3 then Except.error .SYNTAX_ERR
        else
          let bonus := if endsWithStore cid.name then 1 else 0
          let num_keys_index := if startsWithEval cid.name then 2 else bonus + 1
          match SimpleAtoi (args.getD num_keys_index []) with
          | none => Except.error .INVALID_INT
          | some v =>
            if v < 0 then Except.error .INVALID_INT
            else if args.length < v.toNat + num_keys_index + 1 then
              Except.error .SYNTAX_ERR
            else Except.ok (bonus, some v.toNat)
      else Except.ok (0, none)
    match variadicRes with
    | Except.error e => some (Except.error e)
    | Except.ok (bonus, num_custom_keys) =>
      if 0 < cid.first_key_pos then
        let start := cid.first_key_pos
        let last := cid.last_key_pos
        let end_ : Nat :=
          match num_custom_keys with
          | some cnt => start + cnt
          | none =>
            if 0 < last then (last + 1).toNat
            else ((args.length : Int) + 1 + last).toNat
        some (Except.ok
          { start := start, end_ := end_, step := cid.key_arg_step, bonus := bonus })
      else
        none

/-- Transaction::PerShardCache (the thread-local `tmp_space` scratch): the
arguments bucketed for one shard and, optionally, their original positions. -/
structure PerShardCache where
  args : List Nat := []
  original_index : List Nat := []
  requested_active : Bool := false
deriving DecidableEq, Repr

/-- Update the `i`-th element of a list in place (no-op when out of range). -/
def listModify {α : Type} (l : List α) (i : Nat) (f : α → α) : List α :=
  match l, i with
  | [], _ => []
  | x :: xs, 0 => f x :: xs
  | x :: xs, n + 1 => x :: listModify xs n f

/-- `std::vector::resize` for per-shard data: keep the first `n` entries, pad
with defaults. -/
def listResize (l : List PerShardData) (n : Nat) : List PerShardData :=
  l.take n ++ List.replicate (n - l.length) ({} : PerShardData)

/-- Value of `kInvalidSid`. -/
def kInvalidSid : Nat := 4294967295

/-- The `add` lambda of Transaction::BuildShardIndex (transaction.cc): push
argument `i` of the full argument vector onto shard `sid`'s cache, recording
`i - 1` as its original index when reverse mapping is requested.  Arguments
are opaque `Nat` tokens; `full.getD i 0` plays `ArgS(cmd_with_full_args_, i)`. -/
def Transaction.BuildShardIndexAdd (full : List Nat) (rev_mapping : Bool)
    (caches : List PerShardCache) (sid i : Nat) : List PerShardCache :=
  listModify caches sid (fun c =>
    { c with
        args := c.args ++ [full.getD i 0],
        original_index :=
          if rev_mapping then c.original_index ++ [i - 1] else c.original_index })

/-- The distribution loop of Transaction::BuildShardIndex (transaction.cc):
for `i` from `start` to `end`, bucket argument `i` by `Shard(arg, n)`; with
`step = 2`, the value following a key goes to the key's shard.  The loop is
driven by a `fuel` counter for structural recursion; since every iteration
advances `i` by at least one, `end_ - i` fuel at entry never runs out, so the
fuelled loop computes exactly the C++ `for` loop. -/
def Transaction.BuildShardIndexLoop (full : List Nat) (n : Nat) (hash : Nat → Nat)
    (rev_mapping : Bool) (end_ step : Nat) :
    Nat → Nat → List PerShardCache → List PerShardCache
  | 0, _, caches => caches
  | fuel + 1, i, caches =>
    if i < end_ then
      let sid := hash (full.getD i 0) % n
      let caches1 := Transaction.BuildShardIndexAdd full rev_mapping caches sid i
      if step = 2 then
        Transaction.BuildShardIndexLoop full n hash rev_mapping end_ step fuel (i + 2)
          (Transaction.BuildShardIndexAdd full rev_mapping caches1 sid (i + 1))
      else
        Transaction.BuildShardIndexLoop full n hash rev_mapping end_ step fuel (i + 1)
          caches1
    else caches

/-- Transaction::BuildShardIndex (transaction.cc): bucket the key range (and
the bonus key, if any) of the full argument vector into per-shard caches.
`hash key % n` plays `Shard(key, shard_data_.size())`. -/
def Transaction.BuildShardIndex (full : List Nat) (n : Nat) (hash : Nat → Nat)
    (key_index : KeyIndex) (rev_mapping : Bool) : List PerShardCache :=
  let caches : List PerShardCache := List.replicate n {}
  let caches1 :=
    if key_index.bonus ≠ 0 then
      Transaction.BuildShardIndexAdd full rev_mapping caches
        (hash (full.getD key_index.bonus 0) % n) key_index.bonus
    else caches
  Transaction.BuildShardIndexLoop full n hash rev_mapping key_index.end_ key_index.step
    (key_index.end_ - key_index.start) key_index.start caches1

/-- Accumulated output of Transaction::InitShardData: the rebuilt per-shard
data, the flat shard-grouped `args_`, the `reverse_index_` and the
unique-shard bookkeeping. -/
structure InitShardDataRes where
  shard_data : List PerShardData
  args : List Nat
  reverse_index : List Nat
  unique_shard_cnt : Nat
  unique_shard_id : Nat
deriving DecidableEq, Repr

/-- One iteration of the loop of Transaction::InitShardData (transaction.cc)
for shard `i`: `none` models the `CHECK_LT(si.args.size(), 1u << 15)` abort. -/
def Transaction.InitShardDataStep (is_multi incr_locks rev_mapping : Bool)
    (acc : InitShardDataRes) (i : Nat) (sd : PerShardData) (si : PerShardCache) :
    Option InitShardDataRes :=
  if si.args.length < 2 ^ 15 then
    let sd1 :=
      { sd with
          arg_count := (si.args.length : Int),
          arg_start := (acc.args.length : Int) }
    -- multi transactions re-initialize across shards: clear ACTIVE, and for
    -- incremental locking also KEYLOCK_ACQUIRED
    let sd2 :=
      if is_multi then
        { sd1 with local_mask :=
            { sd1.local_mask with
                active := false,
                keylock_acquired :=
                  if incr_locks then false else sd1.local_mask.keylock_acquired } }
      else sd1
    if sd2.arg_count = 0 ∧ si.requested_active = false then
      some { acc with shard_data := acc.shard_data ++ [sd2] }
    else
      let sd3 := { sd2 with local_mask := { sd2.local_mask with active := true } }
      some
        { shard_data := acc.shard_data ++ [sd3],
          args := acc.args ++ si.args,
          reverse_index :=
            if rev_mapping then acc.reverse_index ++ si.original_index
            else acc.reverse_index,
          unique_shard_cnt := acc.unique_shard_cnt + 1,
          unique_shard_id := i }
  else none

/-- The loop of Transaction::InitShardData over the (shard data, shard cache)
pairs. -/
def Transaction.InitShardDataGo (is_multi incr_locks rev_mapping : Bool)
    (i : Nat) (sds : List PerShardData) (sis : List PerShardCache)
    (acc : InitShardDataRes) : Option InitShardDataRes :=
  match sds, sis with
  | sd :: sds2, si :: sis2 =>
    match Transaction.InitShardDataStep is_multi incr_locks rev_mapping acc i sd si with
    | none => none
    | some acc1 =>
      Transaction.InitShardDataGo is_multi incr_locks rev_mapping (i + 1) sds2 sis2 acc1
  | _, _ => some acc

/-- Transaction::InitShardData (transaction.cc): copy the bucketed per-shard
arguments into the flat `args_` vector and point each shard's data at its
sub-span.  The trailing `none` models the `CHECK(args_.size() == num_args)`
abort. -/
def Transaction.InitShardData (is_multi incr_locks rev_mapping : Bool)
    (sds : List PerShardData) (sis : List PerShardCache) (num_args : Nat) :
    Option InitShardDataRes :=
  match Transaction.InitShardDataGo is_multi incr_locks rev_mapping 0 sds sis
      { shard_data := [], args := [], reverse_index := [],
        unique_shard_cnt := 0, unique_shard_id := kInvalidSid } with
  | none => none
  | some acc => if acc.args.length = num_args then some acc else none

/-- Transaction::StoreKeysInArgs (transaction.cc): single-key fast path — copy
the `step` arguments of the key group verbatim and, when reverse mapping is
requested, record their original positions `j + start - 1`. -/
def Transaction.StoreKeysInArgs (full : List Nat) (key_index : KeyIndex)
    (rev_mapping : Bool) : List Nat × List Nat :=
  let args := (List.range key_index.step).map (fun j => full.getD (key_index.start + j) 0)
  let rev :=
    if rev_mapping then (List.range args.length).map (fun j => j + key_index.start - 1)
    else []
  (args, rev)

/-- Output of Transaction::InitByKeys relevant to the claims: the flat args,
the reverse index, the per-shard data and the unique-shard bookkeeping. -/
structure InitByKeysRes where
  args : List Nat
  reverse_index : List Nat
  shard_data : List PerShardData
  unique_shard_cnt : Nat
  unique_shard_id : Nat
deriving DecidableEq, Repr

/-- Transaction::InitByKeys (transaction.cc).  `n` is the shard count,
`is_multi` says whether `multi_` is present, `mmode` its mode, `rev_flag` the
command's `REVERSE_MAPPING` bit, `is_eval_cmd` whether the command name starts
with EVAL (for the zero-keys `CHECK`), `sds0` the pre-existing per-shard data.
`none` models the `CHECK` aborts (`StartsWith(name, "EVAL")` on the zero-key
path, `step == 1 || step == 2`, and those of `InitShardData`).
`InitMultiData` only fills the multi lock bookkeeping and is elided. -/
def Transaction.InitByKeys (n : Nat) (hash : Nat → Nat) (is_multi : Bool)
    (mmode : MultiMode) (rev_flag : Bool) (is_eval_cmd : Bool)
    (sds0 : List PerShardData) (full : List Nat) (key_index : KeyIndex) :
    Option InitByKeysRes :=
  if key_index.start = full.length then
    -- eval with 0 keys
    if is_eval_cmd then
      some { args := [], reverse_index := [], shard_data := sds0,
             unique_shard_cnt := 0, unique_shard_id := kInvalidSid }
    else none
  else
    let is_atomic_multi := is_multi && !(mmode == .NON_ATOMIC)
    if key_index.HasSingleKey && !is_atomic_multi then
      let stored := Transaction.StoreKeysInArgs full key_index rev_flag
      let sds1 := listResize sds0 (if is_multi then n else 1)
      let sds2 := listModify sds1 0 (fun sd =>
        { sd with local_mask := { sd.local_mask with active := true } })
      some { args := stored.1, reverse_index := stored.2, shard_data := sds2,
             unique_shard_cnt := 1,
             unique_shard_id := hash (stored.1.getD 0 0) % n }
    else
      let sds1 := listResize sds0 n
      if key_index.step = 1 ∨ key_index.step = 2 then
        let caches := Transaction.BuildShardIndex full n hash key_index rev_flag
        match Transaction.InitShardData is_multi (mmode == .LOCK_INCREMENTAL) rev_flag
            sds1 caches key_index.num_args with
        | none => none
        | some r =>
          -- compress shard data if only one shard is occupied
          if r.unique_shard_cnt = 1 then
            if is_multi then
              some { args := r.args, reverse_index := r.reverse_index,
                     shard_data := listModify r.shard_data r.unique_shard_id (fun sd =>
                       { sd with
                           local_mask := { sd.local_mask with active := true },
                           arg_count := -1, arg_start := -1 }),
                     unique_shard_cnt := r.unique_shard_cnt,
                     unique_shard_id := r.unique_shard_id }
            else
              some { args := r.args, reverse_index := r.reverse_index,
                     shard_data := listModify (r.shard_data.take 1) 0 (fun sd =>
                       { sd with
                           local_mask := { sd.local_mask with active := true },
                           arg_count := -1, arg_start := -1 }),
                     unique_shard_cnt := r.unique_shard_cnt,
                     unique_shard_id := r.unique_shard_id }
          else
            some { args := r.args, reverse_index := r.reverse_index,
                   shard_data := r.shard_data,
                   unique_shard_cnt := r.unique_shard_cnt,
                   unique_shard_id := r.unique_shard_id }
      else none

/-- Alignment invariant of the reverse mapping: each argument equals the full
argument vector at its recorded original position plus one (the offset 1 skips
the command name). -/
def RevAligned (full : List Nat) (args orig : List Nat) : Prop :=
  List.Forall₂ (fun a o => a = full.getD (o + 1) 0) args orig

/-- Per-shard-cache version of `RevAligned`. -/
def CacheAligned (full : List Nat) (c : PerShardCache) : Prop :=
  RevAligned full c.args c.original_index

/-- Default-initialized per-shard data (all flags clear, not enqueued). -/
def defaultSd : PerShardData := {}

/-- Concrete input for the C1 witness: the shard's committed txid is already
past the candidate txid, so scheduling fails on the first check. -/
def schedW1 : SchedState :=
  { shard := { committed_txid := 5 }, sd := {} }

/-- Concrete input for the C2 witness: default shard, all locks free. -/
def uniqW2 : UniqueShardState :=
  { op_seq := 7, shard := {} }

/-- Concrete input for the C3 counterexample: a queue holding only this
transaction, which sits at the head. -/
def cancelCtr3 : CancelState :=
  { shard := { txq := { entries := [(0, 5)], next_pos := 1 } },
    sd := { pq_pos := some 0 } }

/-- Concrete input for the C3 witness: this transaction at the head of a
two-element queue. -/
def cancelW3 : CancelState :=
  { shard := { txq := { entries := [(0, 5), (1, 7)], next_pos := 2 } },
    sd := { pq_pos := some 0 } }

/-- Concrete parameters for the C4 witness: a concluding multi-shard hop. -/
def runP4 : RunParams :=
  { is_global := false, is_atomic_multi := false, incremental_lock := false,
    mode := .EXCLUSIVE, lock_keys := [2] }

/-- Concrete input for the C4 witness. -/
def runW4 : RunState :=
  { txid := 9, unique_shard_cnt := 2, run_count := 2, coord_concluding := true,
    sd := { local_mask := { active := true, keylock_acquired := true } },
    shard := {} }

/-- Callback outcome for the C4 witness: returns OUT_OF_MEMORY. -/
def cbResOOM4 : LocalMask → CbOutcome := fun _ => .ret .OUT_OF_MEMORY

/-- Callback mask effect for the C4 witness: no flag changes. -/
def cbMaskId4 : LocalMask → LocalMask := fun m => m

/-- Concrete parameters for the C5 witness: a concluding non-multi hop. -/
def runP5 : RunParams :=
  { is_global := false, is_atomic_multi := false, incremental_lock := false,
    mode := .EXCLUSIVE, lock_keys := [2] }

/-- Concrete input for the C5 witness: key lock held, not suspended. -/
def runW5 : RunState :=
  { txid := 5, unique_shard_cnt := 1, run_count := 1, coord_concluding := true,
    sd := { local_mask := { active := true, keylock_acquired := true } },
    shard := { key_locks := fun _ => { ex := 1 } } }

/-- Callback outcome for the C5 witness: returns OK. -/
def cbResOK5 : LocalMask → CbOutcome := fun _ => .ret .OK

/-- Callback mask effect for the C5 witness: no flag changes (the transaction
does not become suspended). -/
def cbMaskId5 : LocalMask → LocalMask := fun m => m

/-- Concrete input for the C6 witness: suspended, wakeup rendezvous at 10. -/
def notifyW6 : NotifyState :=
  { sd := { local_mask := { suspended_q := true } }, notify_txid := 10 }

/-- Expected output state of the C6 witness: awakened, rendezvous lowered. -/
def notifyW6out : NotifyState :=
  { sd := { local_mask := { awaked_q := true } }, notify_txid := 3,
    blocking_ec_notified := true }

/-- Concrete full argument vector for the C7 witness (tokens: command name 99,
keys 10 and 11). -/
def fullW7 : List Nat := [99, 10, 11]

/-- Concrete key index for the C7 witness: keys at positions 1 and 2. -/
def keyIndexW7 : KeyIndex := { start := 1, end_ := 3, step := 1, bonus := 0 }

/-- Expected output of `InitByKeys` for the C7 witness (two shards, identity
hash). -/
def resW7 : InitByKeysRes :=
  { args := [10, 11], reverse_index := [0, 1],
    shard_data :=
      [{ local_mask := { active := true }, arg_start := 0, arg_count := 1 },
       { local_mask := { active := true }, arg_start := 1, arg_count := 1 }],
    unique_shard_cnt := 2, unique_shard_id := 1 }

/-- Concrete command for the C8 witness: a variadic EVAL-family command. -/
def cidW8 : CommandId :=
  { name := ['E', 'V', 'A', 'L'], opt_mask := { variadic_keys := true },
    first_key_pos := 3, last_key_pos := 0, key_arg_step := 1 }

/-- Concrete argument vector for the C8 witness: the declared key count at
position 2 is not numeric. -/
def argsW8 : List (List Char) := [['E'], ['s'], ['x']]

/-- Concrete input for the C9 counterexample: a LOCK_AHEAD multi whose shard
scratch holds a non-zero argument count. -/
def multiCtr9 : MultiSwitchState :=
  { cid := 0, unique_shard_id := 1, unique_shard_cnt := 1, args := [3],
    cb_present := false, shard_data := [{ arg_count := 5 }],
    txid := 7, coordinator_state := 3, multi_mode := .LOCK_AHEAD }

/-- Concrete input for the C9 witness: a NON_ATOMIC multi with dirty scratch. -/
def multiW9 : MultiSwitchState :=
  { cid := 0, unique_shard_id := 1, unique_shard_cnt := 1, args := [3],
    cb_present := false,
    shard_data := [{ arg_count := 5, arg_start := 2,
                     local_mask := { active := true }, pq_pos := some 4 }],
    txid := 7, coordinator_state := 3, multi_mode := .NON_ATOMIC }

/-- Concrete shard caches for the C10 witness. -/
def sisW10 : List PerShardCache := [{ args := [1, 2] }]

/-- Expected output of `InitShardData` for the C10 witness. -/
def resW10 : InitShardDataRes :=
  { shard_data :=
      [{ local_mask := { active := true }, arg_start := 0, arg_count := 2 }],
    args := [1, 2], reverse_index := [], unique_shard_cnt := 1,
    unique_shard_id := 0 }

/-! ## Helper lemmas -/

theorem KeyLockCnt.bump_drop (c : KeyLockCnt) (m : LockMode) (n : Nat) :
    (c.bump m n).drop m n = c := by
  cases m <;> simp [KeyLockCnt.bump, KeyLockCnt.drop]

theorem lock_roundtrip (t : Nat → KeyLockCnt) (m : LockMode) (keys : List Nat)
    (k : Nat) : lockRelease (lockAcquire t m keys).1 m keys k = t k := by
  simp [lockAcquire, lockRelease, KeyLockCnt.bump_drop]

/-! ## C1 -/

/-- C1: if `ScheduleInShard` returns failure (either because the shard's
committed txid is at or past this transaction's txid, or because the queue is
non-empty, the lock was not granted and the tail score is at or past the
txid), then on return the shard's key-lock counters are net unchanged, the
`KEYLOCK_ACQUIRED` bit is clear, and the transaction was not inserted into the
shard's TxQueue.  The entry hypothesis `hkl` is the call-site invariant of
`ScheduleInternal` (a fresh or rolled-back scheduling attempt holds no key
lock). -/
theorem ScheduleInShard_reject_no_net_effect
    (txid : Nat) (spans_all : Bool) (mode : LockMode) (lock_keys : List Nat)
    (st st2 : SchedState) (granted : Bool)
    (hkl : st.sd.local_mask.keylock_acquired = false)
    (h : Transaction.ScheduleInShard txid spans_all mode lock_keys st
          = (st2, false, granted)) :
    (∀ k, st2.shard.key_locks k = st.shard.key_locks k) ∧
    st2.sd.local_mask.keylock_acquired = false ∧
    st2.shard.txq = st.shard.txq ∧
    st2.sd.pq_pos = st.sd.pq_pos := by
  unfold Transaction.ScheduleInShard at h
  split at h
  · obtain ⟨rfl, -, -⟩ : st = st2 ∧ False = False ∧ False = (granted = true) := by
      simpa [Prod.ext_iff, eq_iff_iff] using h
    exact ⟨fun k => rfl, hkl, rfl, rfl⟩
  · cases spans_all
    · simp only [Bool.false_eq_true, if_false, hkl] at h
      split at h
      · simp only [Prod.ext_iff] at h
        obtain ⟨rfl, -⟩ := h
        refine ⟨fun k => lock_roundtrip _ _ _ _, rfl, rfl, rfl⟩
      · simp [Prod.ext_iff] at h
    · simp only [if_true] at h
      split at h
      · simp only [hkl, Bool.false_eq_true, if_false] at h
        simp only [Prod.ext_iff] at h
        obtain ⟨rfl, -⟩ := h
        exact ⟨fun k => rfl, hkl, rfl, rfl⟩
      · simp [Prod.ext_iff] at h

/-- C1 witness: the theorem applied to a shard whose committed txid (5) is
ahead of the candidate txid (3). -/
theorem ScheduleInShard_reject_no_net_effect_witness :
    schedW1.sd.local_mask.keylock_acquired = false ∧
    ((∀ k, schedW1.shard.key_locks k = schedW1.shard.key_locks k) ∧
     schedW1.sd.local_mask.keylock_acquired = false ∧
     schedW1.shard.txq = schedW1.shard.txq ∧
     schedW1.sd.pq_pos = schedW1.sd.pq_pos) :=
  ⟨rfl, ScheduleInShard_reject_no_net_effect 3 false .EXCLUSIVE [] schedW1 schedW1
    false rfl rfl⟩

/-! ## C3 -/

/-- C3 counterexample: this transaction is the sole entry of the queue and
sits at its head; `CancelShardCb` removes it yet returns `false` (the queue is
empty after the removal), refuting "returns true iff the removed entry was at
the head". -/
theorem CancelShardCb_head_sole_entry_false :
    cancelCtr3.sd.pq_pos = cancelCtr3.shard.txq.Head ∧
    cancelCtr3.sd.pq_pos ≠ none ∧
    (Transaction.CancelShardCb .EXCLUSIVE [] cancelCtr3).2 = false := by
  decide

/-- C3 amended: for a transaction that is enqueued at position `pos`,
`CancelShardCb` returns `true` iff the removed entry was at the queue head
AND the queue is still non-empty after the removal. -/
theorem CancelShardCb_result_characterization
    (mode : LockMode) (lock_keys : List Nat) (st : CancelState) (pos : Nat)
    (hpos : st.sd.pq_pos = some pos) :
    ((Transaction.CancelShardCb mode lock_keys st).2 = true ↔
      (st.shard.txq.Head = some pos ∧ (st.shard.txq.Remove pos).Empty = false)) := by
  unfold Transaction.CancelShardCb
  rw [hpos]
  dsimp only
  simp [Bool.and_eq_true, beq_iff_eq, Bool.not_eq_true']

/-- C3 witness: the amended characterization applied to a head entry of a
two-element queue (result `true`). -/
theorem CancelShardCb_result_characterization_witness :
    cancelW3.sd.pq_pos = some 0 ∧
    ((Transaction.CancelShardCb .EXCLUSIVE [] cancelW3).2 = true ↔
      (cancelW3.shard.txq.Head = some 0 ∧
       (cancelW3.shard.txq.Remove 0).Empty = false)) :=
  ⟨by decide, CancelShardCb_result_characterization .EXCLUSIVE [] cancelW3 0 (by decide)⟩

/-! ## C2 -/

/-- C2: quickie fast path.  For a single-shard, non-atomic-multi transaction
(entry invariant: no txid allocated yet), when the target shard's key-lock
check and intent-lock check are both free, the callback runs inline, the
transaction is never inserted into the TxQueue and no txid is allocated
(txid stays 0 and `op_seq` is untouched); otherwise the shard allocates
`txid = op_seq++`, acquires the key lock, inserts into the shard's TxQueue
and calls `PollExecution`. -/
theorem ScheduleUniqueShard_quickie
    (mode : LockMode) (lock_keys : List Nat) (cb_outcome : CbOutcome)
    (st : UniqueShardState)
    (htx : st.txid = 0)
    (hexc : cb_outcome ≠ .otherExc) :
    ((dbCheckLock st.shard.key_locks mode lock_keys
        && st.shard.shard_lock.Check mode) = true →
      ∃ st2, Transaction.ScheduleUniqueShard mode lock_keys cb_outcome st
          = some (st2, true) ∧
        st2.ran_inline = true ∧ st2.txid = 0 ∧ st2.op_seq = st.op_seq ∧
        st2.shard.txq = st.shard.txq ∧ st2.sd.pq_pos = st.sd.pq_pos) ∧
    ((dbCheckLock st.shard.key_locks mode lock_keys
        && st.shard.shard_lock.Check mode) = false →
      ∃ st2, Transaction.ScheduleUniqueShard mode lock_keys cb_outcome st
          = some (st2, false) ∧
        st2.txid = st.op_seq ∧ st2.op_seq = st.op_seq + 1 ∧
        st2.shard.txq = (st.shard.txq.Insert st.op_seq).1 ∧
        st2.sd.pq_pos = some (st.shard.txq.Insert st.op_seq).2 ∧
        st2.sd.local_mask.keylock_acquired = true ∧
        (∀ k, st2.shard.key_locks k
          = (lockAcquire st.shard.key_locks mode lock_keys).1 k) ∧
        st2.shard.poll_count = st.shard.poll_count + 1 ∧
        st2.ran_inline = st.ran_inline) := by
  constructor
  · intro hfree
    unfold Transaction.ScheduleUniqueShard
    simp only [hfree, if_true]
    unfold Transaction.RunQuickie
    cases cb_outcome with
    | ret s => exact ⟨_, rfl, rfl, htx, rfl, rfl, rfl⟩
    | badAlloc => exact ⟨_, rfl, rfl, htx, rfl, rfl, rfl⟩
    | otherExc => exact absurd rfl hexc
  · intro hbusy
    unfold Transaction.ScheduleUniqueShard
    simp only [hbusy, Bool.false_eq_true, if_false]
    exact ⟨_, rfl, rfl, rfl, rfl, rfl, rfl, fun k => rfl, rfl, rfl⟩

/-- C2 witness: uncontended shard (all locks free), callback returns OK — the
quickie path runs. -/
theorem ScheduleUniqueShard_quickie_witness :
    uniqW2.txid = 0 ∧ CbOutcome.ret OpStatus.OK ≠ CbOutcome.otherExc ∧
    ((dbCheckLock uniqW2.shard.key_locks .EXCLUSIVE [1]
        && uniqW2.shard.shard_lock.Check .EXCLUSIVE) = true →
      ∃ st2, Transaction.ScheduleUniqueShard .EXCLUSIVE [1] (.ret .OK) uniqW2
          = some (st2, true) ∧
        st2.ran_inline = true ∧ st2.txid = 0 ∧ st2.op_seq = uniqW2.op_seq ∧
        st2.shard.txq = uniqW2.shard.txq ∧ st2.sd.pq_pos = uniqW2.sd.pq_pos) :=
  ⟨rfl, by decide,
    (ScheduleUniqueShard_quickie .EXCLUSIVE [1] (.ret .OK) uniqW2 rfl (by decide)).1⟩

/-! ## C4 and C5: stage lemmas for RunInShard -/

theorem RunInShard_eq (p : RunParams) (cbRes : LocalMask → CbOutcome)
    (cbMask : LocalMask → LocalMask) (st : RunState) :
    Transaction.RunInShard p cbRes cbMask st
      = match Transaction.RunInShardBody cbRes cbMask
            (Transaction.RunInShardPre p { st with sd := { st.sd with is_armed := false } }) with
        | none => none
        | some st4 =>
          some (Transaction.RunInShardTail p st.sd.local_mask.suspended_q
            st.sd.local_mask.awaked_q st.coord_concluding st4) := rfl

theorem RunInShardPre_mask (p : RunParams) (st : RunState) :
    (Transaction.RunInShardPre p
        { st with sd := { st.sd with is_armed := false } }).sd.local_mask
      = runCbInputMask p st := by
  unfold Transaction.RunInShardPre runCbInputMask
  dsimp only
  split <;> rfl

theorem RunInShardPre_frame (p : RunParams) (st : RunState) :
    (Transaction.RunInShardPre p
        { st with sd := { st.sd with is_armed := false } }).sd.pq_pos
      = st.sd.pq_pos ∧
    (Transaction.RunInShardPre p
        { st with sd := { st.sd with is_armed := false } }).unique_shard_cnt
      = st.unique_shard_cnt ∧
    (Transaction.RunInShardPre p
        { st with sd := { st.sd with is_armed := false } }).shard.txq
      = st.shard.txq ∧
    (Transaction.RunInShardPre p
        { st with sd := { st.sd with is_armed := false } }).run_count
      = st.run_count ∧
    (Transaction.RunInShardPre p
        { st with sd := { st.sd with is_armed := false } }).run_ec_notified
      = st.run_ec_notified ∧
    (Transaction.RunInShardPre p
        { st with sd := { st.sd with is_armed := false } }).coord_concluding
      = st.coord_concluding ∧
    (Transaction.RunInShardPre p
        { st with sd := { st.sd with is_armed := false } }).local_result
      = st.local_result := by
  unfold Transaction.RunInShardPre
  split <;> exact ⟨rfl, rfl, rfl, rfl, rfl, rfl, rfl⟩

theorem RunInShardBody_oom (cbRes : LocalMask → CbOutcome)
    (cbMask : LocalMask → LocalMask) (st2 : RunState)
    (h : cbRes st2.sd.local_mask = .ret .OUT_OF_MEMORY ∨
         cbRes st2.sd.local_mask = .badAlloc) :
    ∃ st4, Transaction.RunInShardBody cbRes cbMask st2 = some st4 ∧
      st4.local_result = .OUT_OF_MEMORY ∧
      st4.sd.local_mask = cbMask st2.sd.local_mask ∧
      st4.sd.pq_pos = st2.sd.pq_pos ∧
      st4.shard = st2.shard ∧
      st4.run_count = st2.run_count ∧
      st4.run_ec_notified = st2.run_ec_notified ∧
      st4.coord_concluding = st2.coord_concluding := by
  unfold Transaction.RunInShardBody
  rcases h with h | h
  · rw [h]
    dsimp only
    by_cases hc : (st2.unique_shard_cnt == 1) = true
    · simp only [hc, if_true]
      exact ⟨_, rfl, rfl, rfl, rfl, rfl, rfl, rfl, rfl⟩
    · simp only [Bool.not_eq_true] at hc
      simp only [hc, Bool.false_eq_true, if_false, if_pos rfl]
      exact ⟨_, rfl, rfl, rfl, rfl, rfl, rfl, rfl, rfl⟩
  · rw [h]
    exact ⟨_, rfl, rfl, rfl, rfl, rfl, rfl, rfl, rfl⟩

theorem RunInShardBody_abort_status (cbRes : LocalMask → CbOutcome)
    (cbMask : LocalMask → LocalMask) (st2 : RunState) (s : OpStatus)
    (hcnt : (st2.unique_shard_cnt == 1) = false)
    (h : cbRes st2.sd.local_mask = .ret s)
    (hok : s ≠ .OK) (hoom : s ≠ .OUT_OF_MEMORY) :
    Transaction.RunInShardBody cbRes cbMask st2 = none := by
  unfold Transaction.RunInShardBody
  rw [h]
  dsimp only
  simp [hcnt, hok, hoom]

theorem RunInShardBody_exc (cbRes : LocalMask → CbOutcome)
    (cbMask : LocalMask → LocalMask) (st2 : RunState)
    (h : cbRes st2.sd.local_mask = .otherExc) :
    Transaction.RunInShardBody cbRes cbMask st2 = none := by
  unfold Transaction.RunInShardBody
  rw [h]

theorem RunInShardBody_completes (cbRes : LocalMask → CbOutcome)
    (cbMask : LocalMask → LocalMask) (st2 : RunState)
    (h : (∃ s, cbRes st2.sd.local_mask = .ret s ∧
           (st2.unique_shard_cnt = 1 ∨ s = .OK ∨ s = .OUT_OF_MEMORY)) ∨
         cbRes st2.sd.local_mask = .badAlloc) :
    ∃ st4, Transaction.RunInShardBody cbRes cbMask st2 = some st4 ∧
      st4.sd.local_mask = cbMask st2.sd.local_mask ∧
      st4.sd.pq_pos = st2.sd.pq_pos ∧
      st4.shard = st2.shard ∧
      st4.coord_concluding = st2.coord_concluding := by
  unfold Transaction.RunInShardBody
  rcases h with ⟨s, hs, hcase⟩ | h
  · rw [hs]
    dsimp only
    by_cases hc : (st2.unique_shard_cnt == 1) = true
    · simp only [hc, if_true]
      exact ⟨_, rfl, rfl, rfl, rfl, rfl⟩
    · simp only [Bool.not_eq_true] at hc
      simp only [hc, Bool.false_eq_true, if_false]
      rcases hcase with hcase | hcase | hcase
      · exact absurd hcase (by simpa using hc)
      · simp only [hcase]
        split
        · exact ⟨_, rfl, rfl, rfl, rfl, rfl⟩
        · exact ⟨_, rfl, rfl, rfl, rfl, rfl⟩
      · simp only [hcase, if_pos rfl]
        exact ⟨_, rfl, rfl, rfl, rfl, rfl⟩
  · rw [h]
    exact ⟨_, rfl, rfl, rfl, rfl, rfl⟩

set_option maxHeartbeats 2000000 in
theorem RunInShardTail_props (p : RunParams) (ws ap conc : Bool) (st4 : RunState) :
    (Transaction.RunInShardTail p ws ap conc st4).1.local_result = st4.local_result ∧
    (Transaction.RunInShardTail p ws ap conc st4).1.sd.pq_pos = none ∧
    (∀ pos, st4.sd.pq_pos = some pos →
      (Transaction.RunInShardTail p ws ap conc st4).1.shard.txq
        = st4.shard.txq.Remove pos) ∧
    (Transaction.RunInShardTail p ws ap conc st4).1.run_count = st4.run_count - 1 ∧
    (Transaction.RunInShardTail p ws ap conc st4).1.run_ec_notified
      = (st4.run_ec_notified || st4.run_count == 1) ∧
    (Transaction.RunInShardTail p ws ap conc st4).2
      = !(conc && !p.is_atomic_multi) ∧
    ((conc && !p.is_atomic_multi) = true → p.is_global = false →
      ((ws = true ∨ st4.sd.local_mask.suspended_q = false) →
        (Transaction.RunInShardTail p ws ap conc st4).1.sd.local_mask.keylock_acquired
          = false ∧
        (∀ k, (Transaction.RunInShardTail p ws ap conc st4).1.shard.key_locks k
          = lockRelease st4.shard.key_locks p.mode p.lock_keys k)) ∧
      ((ws = false ∧ st4.sd.local_mask.suspended_q = true) →
        (Transaction.RunInShardTail p ws ap conc st4).1.sd.local_mask.keylock_acquired
          = st4.sd.local_mask.keylock_acquired ∧
        (∀ k, (Transaction.RunInShardTail p ws ap conc st4).1.shard.key_locks k
          = st4.shard.key_locks k))) ∧
    ((conc && !p.is_atomic_multi) = false →
      (Transaction.RunInShardTail p ws ap conc st4).1.sd.local_mask.keylock_acquired
        = st4.sd.local_mask.keylock_acquired ∧
      (∀ k, (Transaction.RunInShardTail p ws ap conc st4).1.shard.key_locks k
        = st4.shard.key_locks k)) := by
  unfold Transaction.RunInShardTail
  rcases hpq : st4.sd.pq_pos with _ | pos0 <;>
  cases conc <;>
  cases hm : p.is_atomic_multi <;>
  cases hg : p.is_global <;>
  cases ws <;>
  cases hbs : st4.sd.local_mask.suspended_q <;>
  cases ap <;>
  cases hbc : st4.shard.has_blocking_controller <;>
  simp_all

/-! ## C4 -/

/-- C4: error propagation in `RunInShard`.  If the callback returns or raises
OUT_OF_MEMORY, it is recorded in `local_result_` and the hop continues to
completion: the transaction is removed from the TxQueue, the run count is
decremented (notifying the coordinator when it hits zero), and — when this is
a concluding non-multi hop whose transaction did not newly become suspended —
the key lock is released.  For a hop spanning more than one shard, any
returned status other than OK and OUT_OF_MEMORY aborts the process, and an
unexpected exception type is fatal. -/
theorem RunInShard_error_propagation
    (p : RunParams) (cbRes : LocalMask → CbOutcome) (cbMask : LocalMask → LocalMask)
    (st : RunState) :
    ((cbRes (runCbInputMask p st) = .ret .OUT_OF_MEMORY ∨
      cbRes (runCbInputMask p st) = .badAlloc) →
      ∃ st2 keep, Transaction.RunInShard p cbRes cbMask st = some (st2, keep) ∧
        st2.local_result = .OUT_OF_MEMORY ∧
        st2.sd.pq_pos = none ∧
        (∀ pos, st.sd.pq_pos = some pos →
          st2.shard.txq = st.shard.txq.Remove pos) ∧
        st2.run_count = st.run_count - 1 ∧
        st2.run_ec_notified = (st.run_ec_notified || st.run_count == 1) ∧
        (st.coord_concluding = true → p.is_atomic_multi = false →
          p.is_global = false →
          (st.sd.local_mask.suspended_q = true ∨
           (cbMask (runCbInputMask p st)).suspended_q = false) →
          st2.sd.local_mask.keylock_acquired = false)) ∧
    (∀ s : OpStatus, 1 < st.unique_shard_cnt → cbRes (runCbInputMask p st) = .ret s →
      s ≠ .OK → s ≠ .OUT_OF_MEMORY →
      Transaction.RunInShard p cbRes cbMask st = none) ∧
    (cbRes (runCbInputMask p st) = .otherExc →
      Transaction.RunInShard p cbRes cbMask st = none) := by
  have hpre := RunInShardPre_mask p st
  obtain ⟨hf_pq, hf_cnt, hf_txq, hf_rc, hf_ec, hf_cc, hf_lr⟩ :=
    RunInShardPre_frame p st
  refine ⟨?_, ?_, ?_⟩
  · intro hoom
    rw [← hpre] at hoom
    obtain ⟨st4, hbody, hres, hmask4, hpq4, hshard4, hrc4, hec4, hcc4⟩ :=
      RunInShardBody_oom cbRes cbMask _ hoom
    rw [RunInShard_eq, hbody]
    dsimp only
    obtain ⟨t_lr, t_pq, t_rm, t_rc, t_ec, t_keep, t_rel, t_norel⟩ :=
      RunInShardTail_props p st.sd.local_mask.suspended_q st.sd.local_mask.awaked_q
        st.coord_concluding st4
    refine
      ⟨(Transaction.RunInShardTail p st.sd.local_mask.suspended_q
          st.sd.local_mask.awaked_q st.coord_concluding st4).1,
       (Transaction.RunInShardTail p st.sd.local_mask.suspended_q
          st.sd.local_mask.awaked_q st.coord_concluding st4).2,
       rfl, ?_, t_pq, ?_, ?_, ?_, ?_⟩
    · rw [t_lr, hres]
    · intro pos hpos
      have h4 : st4.sd.pq_pos = some pos := by rw [hpq4, hf_pq]; exact hpos
      rw [t_rm pos h4, hshard4, hf_txq]
    · rw [t_rc, hrc4, hf_rc]
    · rw [t_ec, hec4, hrc4, hf_ec, hf_rc]
    · intro hconc hmulti hglob hsusp
      have hsr : (st.coord_concluding && !p.is_atomic_multi) = true := by
        rw [hconc, hmulti]; rfl
      have hbec : st4.sd.local_mask.suspended_q
          = (cbMask (runCbInputMask p st)).suspended_q := by
        rw [hmask4, hpre]
      exact (t_rel hsr hglob).1 (by rw [hbec]; exact hsusp) |>.1
  · intro s hcnt hs hok hoom2
    rw [RunInShard_eq]
    have hcnt2 : ((Transaction.RunInShardPre p
        { st with sd := { st.sd with is_armed := false } }).unique_shard_cnt == 1)
          = false := by
      rw [hf_cnt]
      simp only [beq_eq_false_iff_ne, ne_eq]
      omega
    rw [RunInShardBody_abort_status cbRes cbMask _ s hcnt2 (by rw [hpre]; exact hs) hok hoom2]
  · intro hexc
    rw [RunInShard_eq]
    rw [RunInShardBody_exc cbRes cbMask _ (by rw [hpre]; exact hexc)]

/-- C4 witness: a concluding two-shard hop whose callback returns
OUT_OF_MEMORY completes with the error recorded. -/
theorem RunInShard_error_propagation_witness :
    (cbResOOM4 (runCbInputMask runP4 runW4) = .ret .OUT_OF_MEMORY ∨
     cbResOOM4 (runCbInputMask runP4 runW4) = .badAlloc) ∧
    (∃ st2 keep,
      Transaction.RunInShard runP4 cbResOOM4 cbMaskId4 runW4 = some (st2, keep) ∧
      st2.local_result = .OUT_OF_MEMORY ∧
      st2.sd.pq_pos = none ∧
      (∀ pos, runW4.sd.pq_pos = some pos →
        st2.shard.txq = runW4.shard.txq.Remove pos) ∧
      st2.run_count = runW4.run_count - 1 ∧
      st2.run_ec_notified = (runW4.run_ec_notified || runW4.run_count == 1) ∧
      (runW4.coord_concluding = true → runP4.is_atomic_multi = false →
        runP4.is_global = false →
        (runW4.sd.local_mask.suspended_q = true ∨
         (cbMaskId4 (runCbInputMask runP4 runW4)).suspended_q = false) →
        st2.sd.local_mask.keylock_acquired = false)) :=
  ⟨Or.inl rfl,
   (RunInShard_error_propagation runP4 cbResOOM4 cbMaskId4 runW4).1 (Or.inl rfl)⟩

/-! ## C5 -/

/-- C5: key-lock retention for suspended transactions.  On a concluding,
non-atomic-multi, non-global hop whose callback completes (entry invariant:
the key lock is held, and the callback does not touch the `KEYLOCK_ACQUIRED`
bit — the `DCHECK` before the release), `RunInShard` releases the shard's key
lock and clears `KEYLOCK_ACQUIRED` exactly when the transaction did not newly
become suspended during this hop (it was already suspended before the hop, or
is not suspended after it); when the hop newly sets `SUSPENDED_Q`, the key
lock is kept and `KEYLOCK_ACQUIRED` stays set. -/
theorem RunInShard_keylock_retention
    (p : RunParams) (cbRes : LocalMask → CbOutcome) (cbMask : LocalMask → LocalMask)
    (st : RunState)
    (hconc : st.coord_concluding = true)
    (hmulti : p.is_atomic_multi = false)
    (hglob : p.is_global = false)
    (hkl : st.sd.local_mask.keylock_acquired = true)
    (hklcb : (cbMask st.sd.local_mask).keylock_acquired = true)
    (hout : (∃ s, cbRes st.sd.local_mask = .ret s ∧
              (st.unique_shard_cnt = 1 ∨ s = .OK ∨ s = .OUT_OF_MEMORY)) ∨
            cbRes st.sd.local_mask = .badAlloc) :
    ∃ st2 keep, Transaction.RunInShard p cbRes cbMask st = some (st2, keep) ∧
      (st2.sd.local_mask.keylock_acquired = false ↔
        (st.sd.local_mask.suspended_q = true ∨
         (cbMask st.sd.local_mask).suspended_q = false)) ∧
      (∀ k, st2.shard.key_locks k =
        if st.sd.local_mask.suspended_q = true ∨
           (cbMask st.sd.local_mask).suspended_q = false
        then lockRelease st.shard.key_locks p.mode p.lock_keys k
        else st.shard.key_locks k) := by
  have hpre_id : Transaction.RunInShardPre p
      { st with sd := { st.sd with is_armed := false } }
        = { st with sd := { st.sd with is_armed := false } } := by
    unfold Transaction.RunInShardPre
    rw [if_neg]
    simp [hkl]
  obtain ⟨st4, hbody, hmask4, hpq4, hshard4, hcc4⟩ :=
    RunInShardBody_completes cbRes cbMask
      { st with sd := { st.sd with is_armed := false } } hout
  rw [RunInShard_eq, hpre_id, hbody]
  dsimp only
  obtain ⟨t_lr, t_pq, t_rm, t_rc, t_ec, t_keep, t_rel, t_norel⟩ :=
    RunInShardTail_props p st.sd.local_mask.suspended_q st.sd.local_mask.awaked_q
      st.coord_concluding st4
  have hsr : (st.coord_concluding && !p.is_atomic_multi) = true := by
    rw [hconc, hmulti]; rfl
  have hbec : st4.sd.local_mask.suspended_q = (cbMask st.sd.local_mask).suspended_q := by
    rw [hmask4]
  have hklc4 : st4.sd.local_mask.keylock_acquired = true := by
    rw [hmask4]; exact hklcb
  refine
    ⟨(Transaction.RunInShardTail p st.sd.local_mask.suspended_q
        st.sd.local_mask.awaked_q st.coord_concluding st4).1,
     (Transaction.RunInShardTail p st.sd.local_mask.suspended_q
        st.sd.local_mask.awaked_q st.coord_concluding st4).2,
     rfl, ?_, ?_⟩
  · by_cases hcase : (st.sd.local_mask.suspended_q = true ∨
        (cbMask st.sd.local_mask).suspended_q = false)
    · have hflag := ((t_rel hsr hglob).1 (by rw [hbec]; exact hcase)).1
      rw [hflag]
      simp [hcase]
    · have hws : st.sd.local_mask.suspended_q = false := by
        cases h2 : st.sd.local_mask.suspended_q
        · rfl
        · exact absurd (Or.inl h2) hcase
      have hbc2 : (cbMask st.sd.local_mask).suspended_q = true := by
        cases h2 : (cbMask st.sd.local_mask).suspended_q
        · exact absurd (Or.inr h2) hcase
        · rfl
      have hflag := ((t_rel hsr hglob).2 ⟨hws, by rw [hbec]; exact hbc2⟩).1
      rw [hflag, hklc4]
      simp [hcase]
  · intro k
    by_cases hcase : (st.sd.local_mask.suspended_q = true ∨
        (cbMask st.sd.local_mask).suspended_q = false)
    · have hlocks := ((t_rel hsr hglob).1 (by rw [hbec]; exact hcase)).2 k
      rw [hlocks, hshard4]
      simp [hcase]
    · have hws : st.sd.local_mask.suspended_q = false := by
        cases h2 : st.sd.local_mask.suspended_q
        · rfl
        · exact absurd (Or.inl h2) hcase
      have hbc2 : (cbMask st.sd.local_mask).suspended_q = true := by
        cases h2 : (cbMask st.sd.local_mask).suspended_q
        · exact absurd (Or.inr h2) hcase
        · rfl
      have hlocks := ((t_rel hsr hglob).2 ⟨hws, by rw [hbec]; exact hbc2⟩).2 k
      rw [hlocks, hshard4]
      simp [hcase]

/-- C5 witness: a concluding single-shard hop holding its key lock, whose
callback returns OK without suspending — the lock is released. -/
theorem RunInShard_keylock_retention_witness :
    runW5.coord_concluding = true ∧ runP5.is_atomic_multi = false ∧
    runP5.is_global = false ∧ runW5.sd.local_mask.keylock_acquired = true ∧
    (cbMaskId5 runW5.sd.local_mask).keylock_acquired = true ∧
    (∃ st2 keep,
      Transaction.RunInShard runP5 cbResOK5 cbMaskId5 runW5 = some (st2, keep) ∧
      (st2.sd.local_mask.keylock_acquired = false ↔
        (runW5.sd.local_mask.suspended_q = true ∨
         (cbMaskId5 runW5.sd.local_mask).suspended_q = false)) ∧
      (∀ k, st2.shard.key_locks k =
        if runW5.sd.local_mask.suspended_q = true ∨
           (cbMaskId5 runW5.sd.local_mask).suspended_q = false
        then lockRelease runW5.shard.key_locks runP5.mode runP5.lock_keys k
        else runW5.shard.key_locks k)) :=
  ⟨rfl, rfl, rfl, rfl, rfl,
   RunInShard_keylock_retention runP5 cbResOK5 cbMaskId5 runW5 rfl rfl rfl rfl rfl
     (Or.inl ⟨.OK, rfl, Or.inl rfl⟩)⟩

/-! ## C6 -/

/-- C6: `NotifySuspended` returns `true` iff it transitions this shard's state
from SUSPENDED_Q to AWAKED_Q; when EXPIRED_Q is set it returns `false` and
changes nothing; and `notify_txid` is only ever lowered — it changes only to
`committed_txid`, and only when that is smaller than the current value. -/
theorem NotifySuspended_spec (committed : Nat) (st st2 : NotifyState) (b : Bool)
    (h : Transaction.NotifySuspended committed st = some (st2, b)) :
    (b = true ↔
      (st.sd.local_mask.expired_q = false ∧ st.sd.local_mask.suspended_q = true)) ∧
    (b = true →
      st2.sd.local_mask.suspended_q = false ∧ st2.sd.local_mask.awaked_q = true) ∧
    (st.sd.local_mask.expired_q = true → st2 = st ∧ b = false) ∧
    st2.notify_txid ≤ st.notify_txid ∧
    (st2.notify_txid ≠ st.notify_txid →
      st2.notify_txid = committed ∧ committed < st.notify_txid) := by
  unfold Transaction.NotifySuspended at h
  dsimp only at h
  split at h
  · rename_i hexp
    obtain ⟨rfl, rfl⟩ : st = st2 ∧ false = b := by simpa using h
    refine ⟨by simp [hexp], by simp, fun _ => ⟨rfl, rfl⟩, le_refl _, fun hne => absurd rfl hne⟩
  · rename_i hexp
    split at h
    · rename_i hsus
      split at h
      · rename_i hlt
        obtain ⟨rfl, rfl⟩ : _ = st2 ∧ true = b := by simpa using h
        refine ⟨by simp [hsus, Bool.not_eq_true] at hexp ⊢; exact hexp, ?_, ?_, ?_, ?_⟩
        · intro _; exact ⟨rfl, rfl⟩
        · intro hx; rw [hx] at hexp; exact absurd rfl hexp
        · exact le_of_lt hlt
        · intro _; exact ⟨rfl, hlt⟩
      · rename_i hge
        obtain ⟨rfl, rfl⟩ : _ = st2 ∧ true = b := by simpa using h
        refine ⟨by simp [hsus, Bool.not_eq_true] at hexp ⊢; exact hexp, ?_, ?_, le_refl _, ?_⟩
        · intro _; exact ⟨rfl, rfl⟩
        · intro hx; rw [hx] at hexp; exact absurd rfl hexp
        · intro hne; exact absurd rfl hne
    · rename_i hsus
      split at h
      · obtain ⟨rfl, rfl⟩ : st = st2 ∧ false = b := by simpa using h
        refine ⟨?_, by simp, fun _ => ⟨rfl, rfl⟩, le_refl _, fun hne => absurd rfl hne⟩
        simp only [Bool.not_eq_true] at hsus
        simp [hsus]
      · exact absurd h (by simp)

/-- C6 witness: a suspended shard notified with committed txid 3 against a
current rendezvous of 10: the transition happens and the rendezvous lowers. -/
theorem NotifySuspended_spec_witness :
    Transaction.NotifySuspended 3 notifyW6 = some (notifyW6out, true) ∧
    ((true = true ↔
       (notifyW6.sd.local_mask.expired_q = false ∧
        notifyW6.sd.local_mask.suspended_q = true)) ∧
     (true = true →
       notifyW6out.sd.local_mask.suspended_q = false ∧
       notifyW6out.sd.local_mask.awaked_q = true) ∧
     (notifyW6.sd.local_mask.expired_q = true →
       notifyW6out = notifyW6 ∧ true = false) ∧
     notifyW6out.notify_txid ≤ notifyW6.notify_txid ∧
     (notifyW6out.notify_txid ≠ notifyW6.notify_txid →
       notifyW6out.notify_txid = 3 ∧ 3 < notifyW6.notify_txid)) :=
  ⟨by decide, NotifySuspended_spec 3 notifyW6 notifyW6out true (by decide)⟩

/-! ## C7 -/

theorem revAligned_getD (full : List Nat) (args orig : List Nat)
    (h : RevAligned full args orig) :
    orig.length = args.length ∧
    ∀ i, i < args.length → args.getD i 0 = full.getD (orig.getD i 0 + 1) 0 := by
  have h2 : List.Forall₂ (fun a o => a = full.getD (o + 1) 0) args orig := h
  clear h
  induction h2 with
  | nil => exact ⟨rfl, fun i hi => absurd hi (by simp)⟩
  | cons ha htail ih =>
    refine ⟨by simp [ih.1], ?_⟩
    intro i hi
    cases i with
    | zero => simpa using ha
    | succ j =>
      simp only [List.getD_cons_succ]
      exact ih.2 j (by simpa using hi)

theorem cacheAligned_add (full : List Nat) (i : Nat) (hi : 1 ≤ i)
    (c : PerShardCache) (h : CacheAligned full c) :
    CacheAligned full
      { c with args := c.args ++ [full.getD i 0],
               original_index := c.original_index ++ [i - 1] } := by
  unfold CacheAligned RevAligned at h ⊢
  refine List.rel_append h ?_
  refine List.Forall₂.cons ?_ List.Forall₂.nil
  rw [Nat.sub_add_cancel hi]

theorem listModify_forall {α : Type} (P : α → Prop) :
    ∀ (l : List α) (i : Nat) (f : α → α),
      (∀ x ∈ l, P x) → (∀ x, P x → P (f x)) →
      ∀ x ∈ listModify l i f, P x := by
  intro l
  induction l with
  | nil =>
    intro i f hl hf x hx
    simp [listModify] at hx
  | cons a l2 ih =>
    intro i f hl hf x hx
    cases i with
    | zero =>
      simp only [listModify] at hx
      rcases List.mem_cons.mp hx with rfl | hx2
      · exact hf a (hl a (List.mem_cons_self a l2))
      · exact hl x (List.mem_cons_of_mem a hx2)
    | succ j =>
      simp only [listModify] at hx
      rcases List.mem_cons.mp hx with rfl | hx2
      · exact hl _ (List.mem_cons_self _ _)
      · exact ih j f (fun y hy => hl y (List.mem_cons_of_mem a hy)) hf x hx2

theorem buildAdd_aligned (full : List Nat) (sid i : Nat) (hi : 1 ≤ i)
    (caches : List PerShardCache) (hc : ∀ c ∈ caches, CacheAligned full c) :
    ∀ c ∈ Transaction.BuildShardIndexAdd full true caches sid i,
      CacheAligned full c := by
  unfold Transaction.BuildShardIndexAdd
  refine listModify_forall _ caches sid _ hc ?_
  intro c hcal
  have h2 := cacheAligned_add full i hi c hcal
  simpa using h2

theorem buildLoop_aligned (full : List Nat) (n : Nat) (hash : Nat → Nat)
    (end_ step : Nat) :
    ∀ (fuel i : Nat) (caches : List PerShardCache), 1 ≤ i →
      (∀ c ∈ caches, CacheAligned full c) →
      ∀ c ∈ Transaction.BuildShardIndexLoop full n hash true end_ step fuel i caches,
        CacheAligned full c := by
  intro fuel
  induction fuel with
  | zero =>
    intro i caches hi hc
    exact hc
  | succ fuel ih =>
    intro i caches hi hc
    unfold Transaction.BuildShardIndexLoop
    split
    · dsimp only
      split
      · exact ih (i + 2) _ (by omega)
          (buildAdd_aligned full _ (i + 1) (by omega) _
            (buildAdd_aligned full _ i hi _ hc))
      · exact ih (i + 1) _ (by omega)
          (buildAdd_aligned full _ i hi _ hc)
    · exact hc

theorem replicate_aligned (full : List Nat) (n : Nat) :
    ∀ c ∈ List.replicate n ({} : PerShardCache), CacheAligned full c := by
  intro c hc
  rw [List.eq_of_mem_replicate hc]
  exact List.Forall₂.nil

theorem buildShardIndex_aligned (full : List Nat) (n : Nat) (hash : Nat → Nat)
    (key_index : KeyIndex) (hstart : 1 ≤ key_index.start) :
    ∀ c ∈ Transaction.BuildShardIndex full n hash key_index true,
      CacheAligned full c := by
  unfold Transaction.BuildShardIndex
  dsimp only
  split
  · rename_i hb
    exact buildLoop_aligned full n hash key_index.end_ key_index.step
      (key_index.end_ - key_index.start) key_index.start _ hstart
      (buildAdd_aligned full _ key_index.bonus (by omega) _ (replicate_aligned full n))
  · exact buildLoop_aligned full n hash key_index.end_ key_index.step
      (key_index.end_ - key_index.start) key_index.start _ hstart
      (replicate_aligned full n)

theorem initStep_aligned (full : List Nat) (is_multi incr : Bool) (i : Nat)
    (sd : PerShardData) (si : PerShardCache) (acc acc1 : InitShardDataRes)
    (hsi : CacheAligned full si)
    (hacc : RevAligned full acc.args acc.reverse_index)
    (h : Transaction.InitShardDataStep is_multi incr true acc i sd si = some acc1) :
    RevAligned full acc1.args acc1.reverse_index := by
  unfold Transaction.InitShardDataStep at h
  split at h
  · dsimp only at h
    by_cases hm : is_multi = true <;>
      simp only [hm, if_true, Bool.false_eq_true, if_false] at h <;>
    · split at h
      · cases h
        exact hacc
      · cases h
        exact List.rel_append hacc hsi
  · cases h

theorem initGo_aligned (full : List Nat) (is_multi incr : Bool) :
    ∀ (sds : List PerShardData) (sis : List PerShardCache) (i : Nat)
      (acc res : InitShardDataRes),
      (∀ c ∈ sis, CacheAligned full c) →
      RevAligned full acc.args acc.reverse_index →
      Transaction.InitShardDataGo is_multi incr true i sds sis acc = some res →
      RevAligned full res.args res.reverse_index := by
  intro sds
  induction sds with
  | nil =>
    intro sis i acc res hsis hacc h
    obtain rfl : acc = res := by simpa [Transaction.InitShardDataGo] using h
    exact hacc
  | cons sd sds2 ih =>
    intro sis i acc res hsis hacc h
    cases sis with
    | nil =>
      obtain rfl : acc = res := by simpa [Transaction.InitShardDataGo] using h
      exact hacc
    | cons si sis2 =>
      unfold Transaction.InitShardDataGo at h
      cases hstep : Transaction.InitShardDataStep is_multi incr true acc i sd si with
      | none => rw [hstep] at h; cases h
      | some acc1 =>
        rw [hstep] at h
        exact ih sis2 (i + 1) acc1 res
          (fun c hc => hsis c (List.mem_cons_of_mem _ hc))
          (initStep_aligned full is_multi incr i sd si acc acc1
            (hsis si (List.mem_cons_self _ _)) hacc hstep) h

theorem initShardData_aligned (full : List Nat) (is_multi incr : Bool)
    (sds : List PerShardData) (sis : List PerShardCache) (num_args : Nat)
    (res : InitShardDataRes)
    (hsis : ∀ c ∈ sis, CacheAligned full c)
    (h : Transaction.InitShardData is_multi incr true sds sis num_args = some res) :
    RevAligned full res.args res.reverse_index := by
  unfold Transaction.InitShardData at h
  cases hgo : Transaction.InitShardDataGo is_multi incr true 0 sds sis
      { shard_data := [], args := [], reverse_index := [],
        unique_shard_cnt := 0, unique_shard_id := kInvalidSid } with
  | none => rw [hgo] at h; cases h
  | some acc =>
    rw [hgo] at h
    dsimp only at h
    split at h
    · obtain rfl : acc = res := by simpa using h
      exact initGo_aligned full is_multi incr sds sis 0 _ _ hsis
        (by exact List.Forall₂.nil) hgo
    · cases h

theorem storeKeys_aligned (full : List Nat) (key_index : KeyIndex)
    (hstart : 1 ≤ key_index.start) :
    RevAligned full (Transaction.StoreKeysInArgs full key_index true).1
      (Transaction.StoreKeysInArgs full key_index true).2 := by
  unfold Transaction.StoreKeysInArgs RevAligned
  dsimp only
  rw [if_pos rfl]
  refine List.forall₂_of_length_eq_of_get (by simp) ?_
  intro i h1 h2
  simp only [List.get_eq_getElem, List.getElem_map, List.getElem_range]
  congr 1
  omega

/-- C7: reverse-mapping round trip.  For a command initialized with the
REVERSE_MAPPING flag (whose key positions start past the command name,
`start ≥ 1` — the `(first_key_pos - 1) or bigger` guarantee of
`DetermineKeys`), after `InitByKeys` completes, the reverse index has the same
length as the args vector and every args entry equals the original (full)
argument vector at position `reverse_index[i] + 1` — the offset 1 skips the
command name. -/
theorem InitByKeys_reverse_round_trip
    (n : Nat) (hash : Nat → Nat) (is_multi : Bool) (mmode : MultiMode)
    (is_eval_cmd : Bool) (sds0 : List PerShardData) (full : List Nat)
    (key_index : KeyIndex) (res : InitByKeysRes)
    (hstart : 1 ≤ key_index.start)
    (h : Transaction.InitByKeys n hash is_multi mmode true is_eval_cmd sds0 full
          key_index = some res) :
    res.reverse_index.length = res.args.length ∧
    ∀ i, i < res.args.length →
      res.args.getD i 0 = full.getD (res.reverse_index.getD i 0 + 1) 0 := by
  unfold Transaction.InitByKeys at h
  split at h
  · split at h
    · obtain rfl : _ = res := Option.some.inj h
      exact ⟨rfl, fun i hi => absurd hi (by simp)⟩
    · cases h
  · dsimp only at h
    split at h
    · obtain rfl : _ = res := Option.some.inj h
      exact revAligned_getD full _ _ (storeKeys_aligned full key_index hstart)
    · split at h
      · cases hisd : Transaction.InitShardData is_multi (mmode == .LOCK_INCREMENTAL)
            true (listResize sds0 n)
            (Transaction.BuildShardIndex full n hash key_index true)
            key_index.num_args with
        | none => rw [hisd] at h; cases h
        | some r =>
          rw [hisd] at h
          dsimp only at h
          have hal := initShardData_aligned full is_multi (mmode == .LOCK_INCREMENTAL)
            (listResize sds0 n) (Transaction.BuildShardIndex full n hash key_index true)
            key_index.num_args r
            (buildShardIndex_aligned full n hash key_index hstart) hisd
          split at h
          · split at h
            · obtain rfl : _ = res := Option.some.inj h
              exact revAligned_getD full _ _ hal
            · obtain rfl : _ = res := Option.some.inj h
              exact revAligned_getD full _ _ hal
          · obtain rfl : _ = res := Option.some.inj h
            exact revAligned_getD full _ _ hal
      · cases h

/-- C7 witness: a two-key command across two shards with identity hash — the
round trip holds on the computed result. -/
theorem InitByKeys_reverse_round_trip_witness :
    1 ≤ keyIndexW7.start ∧
    Transaction.InitByKeys 2 (fun k => k) false .NOT_DETERMINED true false []
      fullW7 keyIndexW7 = some resW7 ∧
    (resW7.reverse_index.length = resW7.args.length ∧
     ∀ i, i < resW7.args.length →
       resW7.args.getD i 0 = fullW7.getD (resW7.reverse_index.getD i 0 + 1) 0) :=
  ⟨by decide, by decide,
   InitByKeys_reverse_round_trip 2 (fun k => k) false .NOT_DETERMINED false []
     fullW7 keyIndexW7 resW7 (by decide) (by decide)⟩

/-! ## C8 -/

/-- C8: `DetermineKeys` behavior for global and variadic commands.  A command
with GLOBAL_TRANS yields an empty KeyIndex with status OK.  A VARIADIC_KEYS
command reads its declared key count from argument position 2 when the name
starts with EVAL and from position `bonus + 1` otherwise (`bonus = 1` for
`*STORE` names); it fails with SYNTAX_ERR when fewer than 3 arguments are
given or when the argument vector is too short for the declared count, and
with INVALID_INT when the declared count is non-numeric or negative. -/
theorem DetermineKeys_spec (cid : CommandId) (args : List (List Char)) :
    (cid.opt_mask.global_trans = true →
      DetermineKeys cid args = some (Except.ok KeyIndex.Empty) ∧
      KeyIndex.Empty.num_args = 0) ∧
    (cid.opt_mask.global_trans = false → cid.opt_mask.variadic_keys = true →
      (args.length < 3 →
        DetermineKeys cid args = some (Except.error .SYNTAX_ERR)) ∧
      (3 ≤ args.length →
        (SimpleAtoi (args.getD (numKeysIndexOf cid) []) = none →
          DetermineKeys cid args = some (Except.error .INVALID_INT)) ∧
        (∀ v : Int, SimpleAtoi (args.getD (numKeysIndexOf cid) []) = some v →
          v < 0 →
          DetermineKeys cid args = some (Except.error .INVALID_INT)) ∧
        (∀ v : Int, SimpleAtoi (args.getD (numKeysIndexOf cid) []) = some v →
          0 ≤ v → args.length < v.toNat + numKeysIndexOf cid + 1 →
          DetermineKeys cid args = some (Except.error .SYNTAX_ERR)))) := by
  refine ⟨?_, ?_⟩
  · intro hg
    unfold DetermineKeys
    rw [hg]
    exact ⟨rfl, rfl⟩
  · intro hg hv
    refine ⟨?_, ?_⟩
    · intro hlen
      unfold DetermineKeys
      simp only [hg, hv, Bool.false_eq_true, if_false, if_true]
      rw [if_pos hlen]
    · intro hlen
      have hnl : ¬ args.length < 3 := by omega
      refine ⟨?_, ?_, ?_⟩
      · intro hparse
        simp only [numKeysIndexOf] at hparse
        unfold DetermineKeys
        simp only [hg, hv, Bool.false_eq_true, if_false, if_true]
        rw [if_neg hnl]
        rw [hparse]
      · intro v hparse hneg
        simp only [numKeysIndexOf] at hparse
        unfold DetermineKeys
        simp only [hg, hv, Bool.false_eq_true, if_false, if_true]
        rw [if_neg hnl]
        rw [hparse]
        dsimp only
        rw [if_pos hneg]
      · intro v hparse hpos hshort
        simp only [numKeysIndexOf] at hparse hshort
        unfold DetermineKeys
        simp only [hg, hv, Bool.false_eq_true, if_false, if_true]
        rw [if_neg hnl]
        rw [hparse]
        dsimp only
        rw [if_neg (by omega), if_pos hshort]

/-- C8 witness: an EVAL-family variadic command whose declared key count at
position 2 is not numeric fails with INVALID_INT. -/
theorem DetermineKeys_spec_witness :
    cidW8.opt_mask.global_trans = false ∧
    cidW8.opt_mask.variadic_keys = true ∧
    3 ≤ argsW8.length ∧
    SimpleAtoi (argsW8.getD (numKeysIndexOf cidW8) []) = none ∧
    DetermineKeys cidW8 argsW8 = some (Except.error .INVALID_INT) :=
  ⟨rfl, rfl, by decide, by decide,
   (((DetermineKeys_spec cidW8 argsW8).2 rfl rfl).2 (by decide)).1 (by decide)⟩

/-! ## C10 -/

theorem InitShardDataGo_limit (is_multi incr rev : Bool) :
    ∀ (sds : List PerShardData) (sis : List PerShardCache) (i : Nat)
      (acc res : InitShardDataRes),
      sds.length = sis.length →
      (∀ sd ∈ acc.shard_data, sd.arg_count < 32768) →
      Transaction.InitShardDataGo is_multi incr rev i sds sis acc = some res →
      (∀ si ∈ sis, si.args.length < 32768) ∧
      (∀ sd ∈ res.shard_data, sd.arg_count < 32768) := by
  intro sds
  induction sds with
  | nil =>
    intro sis i acc res hlen hacc h
    cases sis with
    | nil =>
      refine ⟨by simp, ?_⟩
      obtain rfl : acc = res := by
        simpa [Transaction.InitShardDataGo] using h
      exact hacc
    | cons si sis2 => simp at hlen
  | cons sd sds2 ih =>
    intro sis i acc res hlen hacc h
    cases sis with
    | nil => simp at hlen
    | cons si sis2 =>
      unfold Transaction.InitShardDataGo at h
      cases hstep : Transaction.InitShardDataStep is_multi incr rev acc i sd si with
      | none => rw [hstep] at h; cases h
      | some acc1 =>
        rw [hstep] at h
        have hsi : si.args.length < 2 ^ 15 := by
          by_contra hge
          unfold Transaction.InitShardDataStep at hstep
          rw [if_neg hge] at hstep
          cases hstep
        have hsi32 : si.args.length < 32768 := by
          have h2 : (2 : Nat) ^ 15 = 32768 := by norm_num
          rw [h2] at hsi
          exact hsi
        have hacc1 : ∀ sd2 ∈ acc1.shard_data, sd2.arg_count < 32768 := by
          unfold Transaction.InitShardDataStep at hstep
          rw [if_pos hsi] at hstep
          dsimp only at hstep
          by_cases hm2 : is_multi = true <;>
            simp only [hm2, if_true, Bool.false_eq_true, if_false] at hstep <;>
          split at hstep <;> cases hstep <;>
          · intro sd2 hm
            dsimp only at hm
            rcases List.mem_append.mp hm with hm | hm
            · exact hacc sd2 hm
            · rcases List.mem_singleton.mp hm with rfl
              show (si.args.length : Int) < 32768
              exact_mod_cast hsi32
        have hrest := ih sis2 (i + 1) acc1 res (by simpa using hlen) hacc1 h
        refine ⟨?_, hrest.2⟩
        intro si2 hm
        rcases List.mem_cons.mp hm with rfl | hm2
        · exact hsi
        · exact hrest.1 si2 hm2

/-- C10: `InitShardData` aborts via `CHECK_LT(si.args.size(), 1u << 15)`
unless every shard's bucketed argument count is strictly below `2^15`; hence
whenever it completes, every shard cache is below the limit and every
resulting per-shard `arg_count` is below 32768.  (The spec states no such
limit.) -/
theorem InitShardData_arg_limit
    (is_multi incr rev : Bool) (sds : List PerShardData) (sis : List PerShardCache)
    (num_args : Nat) (res : InitShardDataRes)
    (hlen : sds.length = sis.length)
    (h : Transaction.InitShardData is_multi incr rev sds sis num_args = some res) :
    (∀ si ∈ sis, si.args.length < 32768) ∧
    (∀ sd ∈ res.shard_data, sd.arg_count < 32768) := by
  unfold Transaction.InitShardData at h
  cases hgo : Transaction.InitShardDataGo is_multi incr rev 0 sds sis
      { shard_data := [], args := [], reverse_index := [],
        unique_shard_cnt := 0, unique_shard_id := kInvalidSid } with
  | none => rw [hgo] at h; cases h
  | some acc =>
    rw [hgo] at h
    dsimp only at h
    split at h
    · obtain rfl : acc = res := by simpa using h
      exact InitShardDataGo_limit is_multi incr rev sds sis 0 _ _ hlen
        (by intro sd hm; cases hm) hgo
    · cases h

/-- C10 witness: a single shard cache with two bucketed arguments completes
and its `arg_count` is 2 < 32768. -/
theorem InitShardData_arg_limit_witness :
    ([defaultSd] : List PerShardData).length = sisW10.length ∧
    Transaction.InitShardData false false false [defaultSd] sisW10 2
      = some resW10 ∧
    ((∀ si ∈ sisW10, si.args.length < 32768) ∧
     (∀ sd ∈ resW10.shard_data, sd.arg_count < 32768)) :=
  ⟨by decide, by decide,
   InitShardData_arg_limit false false false [defaultSd] sisW10 2 resW10
     (by decide) (by decide)⟩

/-! ## C9 -/

/-- C9 counterexample: for a LOCK_AHEAD multi, `MultiSwitchCmd` does NOT clear
the per-shard scratch — the shard's `arg_count` stays 5, refuting the claim
that the per-shard scratch is cleared for every multi mode. -/
theorem MultiSwitchCmd_scratch_kept_lock_ahead :
    ((Transaction.MultiSwitchCmd 1 multiCtr9).shard_data.getD 0 defaultSd).arg_count
      = 5 ∧
    ¬ ((Transaction.MultiSwitchCmd 1 multiCtr9).shard_data.getD 0 defaultSd).arg_count
      = 0 := by
  decide

/-- C9 amended: `MultiSwitchCmd` rebinds the transaction to the next
sub-command's cid and clears `args` and the single-shard fields; only when the
multi mode is NON_ATOMIC does it additionally clear the per-shard scratch
(arg bounds, local flags, queue position), reset `txid` to 0 and clear the
coordinator state — in every other mode the scratch, txid and coordinator
state are untouched. -/
theorem MultiSwitchCmd_frame (new_cid : Nat) (st : MultiSwitchState) :
    (Transaction.MultiSwitchCmd new_cid st).cid = new_cid ∧
    (Transaction.MultiSwitchCmd new_cid st).args = [] ∧
    (Transaction.MultiSwitchCmd new_cid st).unique_shard_cnt = 0 ∧
    (Transaction.MultiSwitchCmd new_cid st).unique_shard_id = 0 ∧
    (Transaction.MultiSwitchCmd new_cid st).cb_present = false ∧
    (st.multi_mode = .NON_ATOMIC →
      (Transaction.MultiSwitchCmd new_cid st).txid = 0 ∧
      (Transaction.MultiSwitchCmd new_cid st).coordinator_state = 0 ∧
      ∀ sd ∈ (Transaction.MultiSwitchCmd new_cid st).shard_data,
        sd.arg_count = 0 ∧ sd.arg_start = 0 ∧ sd.local_mask = ({} : LocalMask) ∧
        sd.pq_pos = none) ∧
    (st.multi_mode ≠ .NON_ATOMIC →
      (Transaction.MultiSwitchCmd new_cid st).shard_data = st.shard_data ∧
      (Transaction.MultiSwitchCmd new_cid st).txid = st.txid ∧
      (Transaction.MultiSwitchCmd new_cid st).coordinator_state
        = st.coordinator_state) := by
  unfold Transaction.MultiSwitchCmd
  split
  · rename_i hmode
    refine ⟨rfl, rfl, rfl, rfl, rfl, fun _ => ⟨rfl, rfl, ?_⟩, fun hne => absurd hmode hne⟩
    intro sd hsd
    simp only [List.mem_map] at hsd
    obtain ⟨x, -, rfl⟩ := hsd
    exact ⟨rfl, rfl, rfl, rfl⟩
  · rename_i hmode
    exact ⟨rfl, rfl, rfl, rfl, rfl, fun hm => absurd hm hmode, fun _ => ⟨rfl, rfl, rfl⟩⟩

/-- C9 witness: the amended frame applied to a NON_ATOMIC multi with dirty
scratch. -/
theorem MultiSwitchCmd_frame_witness :
    (Transaction.MultiSwitchCmd 2 multiW9).cid = 2 ∧
    (Transaction.MultiSwitchCmd 2 multiW9).args = [] ∧
    (Transaction.MultiSwitchCmd 2 multiW9).unique_shard_cnt = 0 ∧
    (Transaction.MultiSwitchCmd 2 multiW9).unique_shard_id = 0 ∧
    (Transaction.MultiSwitchCmd 2 multiW9).cb_present = false ∧
    (multiW9.multi_mode = .NON_ATOMIC →
      (Transaction.MultiSwitchCmd 2 multiW9).txid = 0 ∧
      (Transaction.MultiSwitchCmd 2 multiW9).coordinator_state = 0 ∧
      ∀ sd ∈ (Transaction.MultiSwitchCmd 2 multiW9).shard_data,
        sd.arg_count = 0 ∧ sd.arg_start = 0 ∧ sd.local_mask = ({} : LocalMask) ∧
        sd.pq_pos = none) ∧
    (multiW9.multi_mode ≠ .NON_ATOMIC →
      (Transaction.MultiSwitchCmd 2 multiW9).shard_data = multiW9.shard_data ∧
      (Transaction.MultiSwitchCmd 2 multiW9).txid = multiW9.txid ∧
      (Transaction.MultiSwitchCmd 2 multiW9).coordinator_state
        = multiW9.coordinator_state) :=
  MultiSwitchCmd_frame 2 multiW9

end Dfly
